import Mathlib

/-!
# Deck column filtering (`src/deck/column-base.jsx`)

A shallow embedding of the column classes of the Deck add-on: the settings
normalisation of `ColumnBase`, the per-item predicates and `filterItems`
of `LiveColumnBase`, `ClipColumnBase` and `VideoColumnBase`, the client-side
sort, the cache update and the tag subtitle.

JavaScript values are embedded as follows.

* A value that may be `null`/`undefined` is an `Option`; an array of strings is a
  `List String`.  Every array and every object is truthy, so `if ( xs )` on an
  optional array is `xs.isSome`.
* A `Set` of strings is the list of its values in insertion order.
* The tag loader (`getLoader()`) is the function `getTagImmediate` of its
  current state: tag id to the descriptor that is available right now.
* A `for … of` loop that may `return false` is a recursive function to `Bool`
  whose value `true` means that the loop ran to its end.
* A call that dereferences `null` raises: such functions return `Except JsError`.
* The built-in case mappings of strings are taken as given (`CaseMapping`); the examples
  evaluate them on ASCII letters.
* A plain object (the cache) is the list of its own entries; a property read falls back on
  the members of `Object.prototype`.
-/

namespace Deck

/-! ## JavaScript helpers -/

/-- Exceptions raised by the embedded code. -/
inductive JsError where
  | typeError
  | error (message : String)
  deriving DecidableEq, Repr

/-- The case mappings of strings, the built-ins `String.prototype.toLowerCase` and
`String.prototype.toUpperCase`.  They are no part of the source and follow the Unicode tables
of the host, so the embedding takes them as given: a definition that calls one, and a result
on such a definition, is stated for whatever functions the two are. -/
class CaseMapping where
  toLowerCase : String → String
  toUpperCase : String → String

export CaseMapping (toLowerCase toUpperCase)

/-- Truthiness of a possibly absent string: absent and the empty string are falsy. -/
def truthyStr : Option String → Bool
  | none => false
  | some s => s != ""

/-- Membership test `xs.includes(x)` of an array of strings. -/
def includes (xs : List String) (x : String) : Bool := xs.contains x

/-- Insertion `set.add(x)` into a `Set`, kept as the list of its values in insertion order. -/
def setAdd (set : List String) (x : String) : List String :=
  if includes set x then set else set ++ [x]

/-- The loop `for(const x of xs) set.add(f(x))`. -/
def setAddEach (f : String → String) (set : List String) : List String → List String
  | [] => set
  | x :: xs => setAddEach f (setAdd set (f x)) xs

/-! ## Data model -/

/-- A category (`game`) record of an item. -/
structure Game where
  id : String
  name : String
  deriving DecidableEq, Repr

/-- An entry of an item's tag list; only its `id` is read. -/
structure ItemTag where
  id : String
  deriving DecidableEq, Repr

/-- The `stream` sub-record of a Live item. -/
structure Stream where
  type : Option String := none
  tags : Option (List ItemTag) := none
  viewersCount : Option Nat := none
  createdAt : Option Nat := none
  deriving DecidableEq, Repr

/-- The `broadcastSettings` sub-record of a Live item. -/
structure BroadcastSettings where
  game : Option Game := none
  language : Option String := none
  deriving DecidableEq, Repr

/-- A Live item. -/
structure LiveItem where
  id : String := ""
  stream : Option Stream := none
  broadcastSettings : Option BroadcastSettings := none
  deriving DecidableEq, Repr

/-- A Clip item. -/
structure ClipItem where
  id : String := ""
  game : Option Game := none
  viewCount : Option Nat := none
  deriving DecidableEq, Repr

/-- A Video item. -/
structure VideoItem where
  id : String := ""
  status : Option String := none
  broadcastType : Option String := none
  game : Option Game := none
  language : Option String := none
  contentTags : Option (List ItemTag) := none
  deriving DecidableEq, Repr

/-- A tag descriptor as the tag loader returns it. -/
structure TagDescriptor where
  id : String := ""
  label : String := ""
  is_language : Bool := false
  language : Option String := none
  deriving DecidableEq, Repr

/-- The tag loader's `getTagImmediate(tag_id)` in its current state: the descriptor when the
tag is resolved already, `none` otherwise. -/
abbrev TagLoader := String → Option TagDescriptor

/-- The value of `settings.types`: an array, or some value that is not an array. -/
inductive TypesSetting where
  | array (types : List String)
  | notArray
  deriving DecidableEq, Repr

/-- The column-local settings object. -/
structure Settings where
  tags : Option (List String) := none
  blocked_tags : Option (List String) := none
  filter_games : Option (List String) := none
  filter_blocked_games : Option (List String) := none
  lang : Option (List String) := none
  sort : Option String := none
  period : Option String := none
  types : Option TypesSetting := none
  no_recordings : Bool := false
  deriving DecidableEq, Repr

/-- The settings object shared by all columns. -/
structure GlobalSettings where
  tags : Option (List String) := none
  blocked_tags : Option (List String) := none
  lang : Option (List String) := none
  blocked_games : Option (List String) := none
  hide_reruns : Bool := false
  deriving DecidableEq, Repr

/-- The comparator functions that the `clientSort` fields of `LiveColumnBase.SORT_OPTIONS`
hold, by name; `ClientSort.apply` is the function. -/
inductive ClientSort where
  | viewersHighToLow
  | viewersLowToHigh
  | recentlyStarted
  deriving DecidableEq, Repr

/-- A sort descriptor of a `SORT_OPTIONS` table. -/
structure SortOption where
  title : String
  i18n : String
  subtitle : Option String := none
  sub_i18n : Option String := none
  icon : Option String := none
  clientSort : Option ClientSort := none
  deriving DecidableEq, Repr

/-- The class of a column instance. -/
inductive ColumnKind where
  | base
  | live
  | clip
  | video
  deriving DecidableEq, Repr

/-- The fields of a column instance; `invalidations` counts the calls of
`this.vue.invalidateData()`. -/
structure Column where
  kind : ColumnKind := ColumnKind.base
  settings : Option Settings := none
  global_settings : Option GlobalSettings := none
  required_tags : Option (List String) := none
  blocked_tags : Option (List String) := none
  filter_games : Option (List String) := none
  filter_blocked_games : Option (List String) := none
  languages : Option (List String) := none
  sort : Option SortOption := none
  types : Option (List String) := none
  no_recordings : Bool := false
  invalidations : Nat := 0
  deriving DecidableEq, Repr

/-! ## `ColumnBase`: settings normalisation -/

/-- The table `ClipColumnBase.SORT_OPTIONS`, as the list of its entries. -/
def ClipColumnBase.SORT_OPTIONS : List (String × SortOption) :=
  [ ("CREATED_AT_ASC",
      { title := "Recently Created", i18n := "addon.deck.sort.clip.created-asc",
        subtitle := some "Recent", sub_i18n := some "addon.deck.sub.recent",
        icon := some "ffz-i-clock" }),
    ("CREATED_AT_DESC",
      { title := "Oldest First", i18n := "addon.deck.sort.clip.created-desc",
        subtitle := some "Oldest", sub_i18n := some "addon.deck.sub.oldest",
        icon := some "ffz-i-clock" }),
    ("VIEWS_ASC",
      { title := "Views (Low to High)", i18n := "addon.deck.sort.clip.views-asc",
        subtitle := some "Views", sub_i18n := some "addon.deck.sub.views",
        icon := some "ffz-i-sort-alt-up" }),
    ("VIEWS_DESC",
      { title := "Views (High to Low)", i18n := "addon.deck.sort.clip.views-desc",
        subtitle := some "Views", sub_i18n := some "addon.deck.sub.views",
        icon := some "ffz-i-sort-alt-down" }),
    ("TRENDING",
      { title := "Trending", i18n := "addon.deck.sort.trending",
        icon := some "ffz-i-thumbs-up" }) ]

/-- The method `getSortOptions()`: `null` in `ColumnBase`, overridden by `ClipColumnBase` only. -/
def getSortOptions : ColumnKind → Option (List (String × SortOption))
  | ColumnKind.clip => some ClipColumnBase.SORT_OPTIONS
  | _ => none

/-- The method `updateLanguages()`. -/
def updateLanguages [CaseMapping] (c : Column) : Column :=
  let set : List String := []
  let set :=
    match c.settings with
    | some s => match s.lang with
      | some langs => setAddEach toUpperCase set langs
      | none => set
    | none => set
  let set :=
    match c.global_settings with
    | some g => match g.lang with
      | some langs => setAddEach toUpperCase set langs
      | none => set
    | none => set
  { c with languages := if set.length > 0 then some set else none }

/-- The expression `this.settings?.<list>?.length ? [...this.settings.<list>] : null`. -/
def copyIfNonEmpty (settings : Option Settings) (field : Settings → Option (List String)) :
    Option (List String) :=
  match settings with
  | none => none
  | some s => match field s with
    | none => none
    | some xs => if xs.length != 0 then some xs else none

/-- The method `updateFilters()`. -/
def updateFilters (c : Column) : Column :=
  { c with
    filter_games := copyIfNonEmpty c.settings Settings.filter_games
    filter_blocked_games := copyIfNonEmpty c.settings Settings.filter_blocked_games }

/-- The method `updateTags()`. -/
def updateTags (c : Column) : Column :=
  let set : List String := []
  let blocked : List String := []
  let set :=
    match c.settings with
    | some s => match s.tags with
      | some tags => setAddEach id set tags
      | none => set
    | none => set
  let blocked :=
    match c.settings with
    | some s => match s.blocked_tags with
      | some tags => setAddEach id blocked tags
      | none => blocked
    | none => blocked
  let set :=
    match c.global_settings with
    | some g => match g.tags with
      | some tags => setAddEach id set tags
      | none => set
    | none => set
  let blocked :=
    match c.global_settings with
    | some g => match g.blocked_tags with
      | some tags => setAddEach id blocked tags
      | none => blocked
    | none => blocked
  { c with
    required_tags := if set.length > 0 then some set else none
    blocked_tags := if blocked.length > 0 then some blocked else none }

/-- The method `updateSort()`: `options && this.settings && options[this.settings.sort] || null`,
for a sort key that is an own key of the table or names no property at all; a key that names
a member of `Object.prototype` (such as `toString`) is outside this embedding. -/
def updateSort (c : Column) : Column :=
  { c with
    sort :=
      match getSortOptions c.kind, c.settings with
      | some options, some s =>
        match s.sort with
        | some key => (options.find? (fun e => e.1 == key)).map Prod.snd
        | none => none
      | _, _ => none }

/-- The method `invalidate()`: one more call of `this.vue.invalidateData()`. -/
def invalidate (c : Column) : Column :=
  { c with invalidations := c.invalidations + 1 }

/-- The library function `deep_equals` on two settings values: structural equality. -/
def deep_equals {α : Type} [DecidableEq α] (a b : Option α) : Bool := decide (a = b)

/-- The method `shouldSettingsInvalidate(new_settings, old_settings)`. -/
def shouldSettingsInvalidate (new_settings old_settings : Option Settings) : Bool :=
  if new_settings.isSome then
    ! deep_equals new_settings old_settings
  else
    ! old_settings.isSome

/-- The method `shouldGlobalSettingsInvalidate(new_settings, old_settings)`. -/
def shouldGlobalSettingsInvalidate (new_settings old_settings : Option GlobalSettings) : Bool :=
  if new_settings.isSome then
    ! deep_equals new_settings old_settings
  else
    ! old_settings.isSome

/-- The constructor of `ColumnBase` (`reset()` does nothing). -/
def ColumnBase.new [CaseMapping] (kind : ColumnKind) (settings : Option Settings)
    (global_settings : Option GlobalSettings) : Column :=
  let c : Column := { kind := kind, settings := settings, global_settings := global_settings }
  let c := updateTags c
  let c := updateFilters c
  let c := updateLanguages c
  updateSort c

/-- The method `ColumnBase.updateSettings(settings)`. -/
def ColumnBase.updateSettings [CaseMapping] (c : Column) (settings : Option Settings) : Column :=
  let old_settings := c.settings
  let c := { c with settings := settings }
  let c := updateTags c
  let c := updateFilters c
  let c := updateLanguages c
  let c := updateSort c
  if shouldSettingsInvalidate settings old_settings then invalidate c else c

/-- The method `ColumnBase.updateGlobalSettings(settings)`. -/
def ColumnBase.updateGlobalSettings [CaseMapping] (c : Column) (settings : Option GlobalSettings) : Column :=
  let old_global := c.global_settings
  let c := { c with global_settings := settings }
  let c := updateTags c
  let c := updateFilters c
  let c := updateLanguages c
  if shouldGlobalSettingsInvalidate settings old_global then invalidate c else c

/-! ## `VideoColumnBase`: allowed broadcast types -/

/-- The loop of `updateTypes()` over `Object.keys(VideoTypes)`: the keys that `types` does not
list, in the order of the table. -/
def updateTypes.loop (types : List String) (out : List String) : List String → List String
  | [] => out
  | type :: rest =>
    if ! includes types type then updateTypes.loop types (out ++ [type]) rest
    else updateTypes.loop types out rest

/-- The method `VideoColumnBase.updateTypes()`; `videoTypes` is `Object.keys(VideoTypes)`, the
keys of a table imported from `./data`. -/
def VideoColumnBase.updateTypes (videoTypes : List String) (c : Column) : Column :=
  let types := match c.settings with
    | some s => s.types
    | none => none
  match types with
  | some (TypesSetting.array ts) =>
    if ts.length = 0 then { c with types := none }
    else { c with types := some (updateTypes.loop ts [] videoTypes) }
  | _ => { c with types := none }

/-- The method `VideoColumnBase.canRun()`, as the truthiness of
`! this.types || this.types.length`. -/
def VideoColumnBase.canRun (c : Column) : Bool :=
  match c.types with
  | none => true
  | some ts => ts.length != 0

/-- The constructor of `VideoColumnBase`. -/
def VideoColumnBase.new [CaseMapping] (videoTypes : List String) (settings : Option Settings)
    (global_settings : Option GlobalSettings) : Column :=
  VideoColumnBase.updateTypes videoTypes (ColumnBase.new ColumnKind.video settings global_settings)

/-- The method `VideoColumnBase.updateSettings(settings)`. -/
def VideoColumnBase.updateSettings [CaseMapping] (videoTypes : List String) (c : Column)
    (settings : Option Settings) : Column :=
  VideoColumnBase.updateTypes videoTypes (ColumnBase.updateSettings c settings)

/-! ## Per-item predicates -/

/-- The loop over `required_tags` shared by `filterStream` and `filterVideo`: a required id
that the item's tags do not include is looked up in the loader, and the loop goes on
(`continue`) only when `tag && tag.is_language && lang && lang === tag.language`; otherwise
the predicate returns `false`. -/
def requiredTagsLoop (loader : TagLoader) (tags : List String) (lang : Option String) :
    List String → Bool
  | [] => true
  | tag_id :: rest =>
    if ! includes tags tag_id then
      match loader tag_id with
      | some tag =>
        if tag.is_language && truthyStr lang && decide (lang = tag.language) then
          requiredTagsLoop loader tags lang rest
        else false
      | none => false
    else requiredTagsLoop loader tags lang rest

/-- The loop over `blocked_tags` shared by `filterStream` and `filterVideo`. -/
def blockedTagsLoop (tags : List String) : List String → Bool
  | [] => true
  | tag_id :: rest =>
    if includes tags tag_id then false else blockedTagsLoop tags rest

/-- The block guarded by `if ( required_tags || blocked_tags )`, given the item's tag ids and
language. -/
def tagsBlock (loader : TagLoader) (tags : List String) (lang : Option String)
    (required_tags blocked_tags : Option (List String)) : Bool :=
  if required_tags.isSome || blocked_tags.isSome then
    let required_ok :=
      match required_tags with
      | some required => requiredTagsLoop loader tags lang required
      | none => true
    if ! required_ok then false
    else
      match blocked_tags with
      | some blocked => blockedTagsLoop tags blocked
      | none => true
  else true

/-- The library call `get('stream.tags.@each.id', item)`: the ids of `item.stream.tags`, or a
falsy value when the path breaks off. -/
def LiveItem.getTagIds (item : LiveItem) : Option (List String) :=
  match item.stream with
  | none => none
  | some stream => stream.tags.map (fun tags => tags.map ItemTag.id)

/-- The expression `item.broadcastSettings && item.broadcastSettings.language &&
item.broadcastSettings.language.toLowerCase()`. -/
def LiveItem.lang [CaseMapping] (item : LiveItem) : Option String :=
  match item.broadcastSettings with
  | none => none
  | some bs =>
    match bs.language with
    | none => none
    | some language => if language = "" then some "" else some (toLowerCase language)

/-- The expression `item.broadcastSettings && item.broadcastSettings.game`. -/
def LiveItem.game (item : LiveItem) : Option Game :=
  match item.broadcastSettings with
  | none => none
  | some bs => bs.game

/-- The static method `LiveColumnBase.filterStream`. -/
def LiveColumnBase.filterStream [CaseMapping] (loader : TagLoader) (item : LiveItem) (hide_reruns : Bool)
    (blocked_games required_tags blocked_tags filter_games filter_blocked_games :
      Option (List String)) : Bool :=
  match item.stream with
  | none => false
  | some stream =>
    if hide_reruns && decide (stream.type = some "rerun") then false
    else
      let game := item.game
      if (match blocked_games, game with
          | some names, some g => includes names g.name
          | _, _ => false) then false
      else if (match filter_games, game with
          | some ids, some g => ! includes ids g.id
          | _, _ => false) then false
      else if (match filter_blocked_games, game with
          | some ids, some g => includes ids g.id
          | _, _ => false) then false
      else
        tagsBlock loader (item.getTagIds.getD []) item.lang required_tags blocked_tags

/-- The static method `ClipColumnBase.filterClip`. -/
def ClipColumnBase.filterClip (item : ClipItem)
    (blocked_games filter_games filter_blocked_games : Option (List String)) : Bool :=
  if (match blocked_games, item.game with
      | some names, some g => includes names g.name
      | _, _ => false) then false
  else if (match filter_games, item.game with
      | some ids, some g => ! includes ids g.id
      | _, _ => false) then false
  else if (match filter_blocked_games, item.game with
      | some ids, some g => includes ids g.id
      | _, _ => false) then false
  else true

/-- The library call `get('contentTags.@each.id', item)`. -/
def VideoItem.getTagIds (item : VideoItem) : Option (List String) :=
  item.contentTags.map (fun tags => tags.map ItemTag.id)

/-- The expression `item.language && item.language.toLowerCase()`. -/
def VideoItem.lang [CaseMapping] (item : VideoItem) : Option String :=
  match item.language with
  | none => none
  | some language => if language = "" then some "" else some (toLowerCase language)

/-- The static method `VideoColumnBase.filterVideo`. -/
def VideoColumnBase.filterVideo [CaseMapping] (loader : TagLoader) (item : VideoItem) (no_recordings : Bool)
    (types blocked_games required_tags blocked_tags filter_games filter_blocked_games :
      Option (List String)) : Bool :=
  if no_recordings && decide (item.status = some "RECORDING") then false
  else if (match types, item.broadcastType with
      | some ts, some bt => truthyStr (some bt) && ! includes ts bt
      | _, _ => false) then false
  else if (match blocked_games, item.game with
      | some names, some g => includes names g.name
      | _, _ => false) then false
  else if (match filter_games, item.game with
      | some ids, some g => ! includes ids g.id
      | _, _ => false) then false
  else if (match filter_blocked_games, item.game with
      | some ids, some g => includes ids g.id
      | _, _ => false) then false
  else
    tagsBlock loader (item.getTagIds.getD []) item.lang required_tags blocked_tags

/-! ## `filterItems` -/

/-- The method `LiveColumnBase.filterItems(items)`; `items = none` is a value that is not an
array.  Reading `this.global_settings.hide_reruns` raises when `global_settings` is `null`. -/
def LiveColumnBase.filterItems [CaseMapping] (loader : TagLoader) (c : Column)
    (items : Option (List LiveItem)) : Except JsError (List LiveItem) :=
  match items with
  | none => Except.ok []
  | some items =>
    match c.global_settings with
    | none => Except.error JsError.typeError
    | some g =>
      let hide_reruns := g.hide_reruns
      let blocked_games := g.blocked_games
      Except.ok (items.filter (fun item =>
        LiveColumnBase.filterStream loader item hide_reruns blocked_games c.required_tags
          c.blocked_tags c.filter_games c.filter_blocked_games))

/-- The method `ClipColumnBase.filterItems(items)`. -/
def ClipColumnBase.filterItems (c : Column)
    (items : Option (List ClipItem)) : Except JsError (List ClipItem) :=
  match items with
  | none => Except.ok []
  | some items =>
    match c.global_settings with
    | none => Except.error JsError.typeError
    | some g =>
      let blocked_games := g.blocked_games
      Except.ok (items.filter (fun item =>
        ClipColumnBase.filterClip item blocked_games c.filter_games c.filter_blocked_games))

/-- The method `VideoColumnBase.filterItems(items)`.  Reading `this.settings.no_recordings`
raises when `settings` is `null`, reading `this.global_settings.blocked_games` when
`global_settings` is. -/
def VideoColumnBase.filterItems [CaseMapping] (loader : TagLoader) (c : Column)
    (items : Option (List VideoItem)) : Except JsError (List VideoItem) :=
  match items with
  | none => Except.ok []
  | some items =>
    match c.settings with
    | none => Except.error JsError.typeError
    | some s =>
      let no_recordings := s.no_recordings || c.no_recordings
      let types := c.types
      match c.global_settings with
      | none => Except.error JsError.typeError
      | some g =>
        let blocked_games := g.blocked_games
        Except.ok (items.filter (fun item =>
          VideoColumnBase.filterVideo loader item no_recordings types blocked_games
            c.required_tags c.blocked_tags c.filter_games c.filter_blocked_games))

/-! ## Client-side sort -/

/-- The value `x?.stream?.viewersCount || 0`. -/
def viewersCountOrZero (item : LiveItem) : Int :=
  match item.stream with
  | none => 0
  | some stream => ((stream.viewersCount.getD 0 : Nat) : Int)

/-- The value of `new Date(x?.stream?.createdAt || 0)` in a subtraction: the time in
milliseconds, `0` when the date is missing.  The field `createdAt` holds the time of a date
that parses; a date that does not parse (`NaN` in the subtraction) is outside this
embedding. -/
def createdAtOrZero (item : LiveItem) : Int :=
  match item.stream with
  | none => 0
  | some stream => ((stream.createdAt.getD 0 : Nat) : Int)

/-- The comparator function `(a, b) => …` of a `clientSort` field. -/
def ClientSort.apply : ClientSort → LiveItem → LiveItem → Int
  | ClientSort.viewersHighToLow, a, b => viewersCountOrZero b - viewersCountOrZero a
  | ClientSort.viewersLowToHigh, a, b => viewersCountOrZero a - viewersCountOrZero b
  | ClientSort.recentlyStarted, a, b => createdAtOrZero b - createdAtOrZero a

/-- The entry `VIEWER_COUNT` of `LiveColumnBase.SORT_OPTIONS`. -/
def LiveColumnBase.VIEWER_COUNT : SortOption :=
  { title := "Viewers (High to Low)", i18n := "addon.deck.sort.live.viewers",
    subtitle := some "Viewers", sub_i18n := some "addon.deck.sort.sub.viewers",
    icon := some "ffz-i-sort-alt-down",
    clientSort := some ClientSort.viewersHighToLow }

/-- The entry `VIEWER_COUNT_ASC` of `LiveColumnBase.SORT_OPTIONS`. -/
def LiveColumnBase.VIEWER_COUNT_ASC : SortOption :=
  { title := "Viewers (Low to High)", i18n := "addon.deck.sort.live.viewers-asc",
    subtitle := some "Viewers", sub_i18n := some "addon.deck.sort.sub.viewers",
    icon := some "ffz-i-sort-alt-up",
    clientSort := some ClientSort.viewersLowToHigh }

/-- The entry `RECENT` of `LiveColumnBase.SORT_OPTIONS`. -/
def LiveColumnBase.RECENT : SortOption :=
  { title := "Recently Started", i18n := "addon.deck.live.recent",
    subtitle := some "Recent", sub_i18n := some "addon.deck.sub.recent",
    icon := some "ffz-i-clock",
    clientSort := some ClientSort.recentlyStarted }

/-- The entry `RELEVANCE` of `LiveColumnBase.SORT_OPTIONS`: it has no `clientSort`. -/
def LiveColumnBase.RELEVANCE : SortOption :=
  { title := "Recommended for You", i18n := "addon.deck.live.recommended",
    subtitle := some "Recommended", sub_i18n := some "addon.deck.sub.recommended",
    icon := some "ffz-i-thumbs-up" }

/-- The table `LiveColumnBase.SORT_OPTIONS`, as the list of its entries. -/
def LiveColumnBase.SORT_OPTIONS : List (String × SortOption) :=
  [ ("VIEWER_COUNT", LiveColumnBase.VIEWER_COUNT),
    ("VIEWER_COUNT_ASC", LiveColumnBase.VIEWER_COUNT_ASC),
    ("RECENT", LiveColumnBase.RECENT),
    ("RELEVANCE", LiveColumnBase.RELEVANCE) ]

/-- The table `VideoColumnBase.SORT_OPTIONS`, as the list of its entries. -/
def VideoColumnBase.SORT_OPTIONS : List (String × SortOption) :=
  [ ("TIME",
      { title := "Recently Published", i18n := "addon.deck.sort.video.recent",
        subtitle := some "Recent", sub_i18n := some "addon.deck.sub.recent",
        icon := some "ffz-i-clock" }),
    ("VIEWS",
      { title := "Views (High to Low)", i18n := "addon.deck.sort.video.views",
        subtitle := some "Views", sub_i18n := some "addon.deck.sort.sub.views",
        icon := some "ffz-i-sort-alt-down" }) ]

/-- The built-in `Array.prototype.sort(fn)`: a stable sort in which `a` stays before `b` when
`fn(a, b) ≤ 0`; insertion of each item, from the last to the first, into the sorted rest. -/
def arraySort {α : Type} (fn : α → α → Int) (items : List α) : List α :=
  items.insertionSort (fun a b => fn a b ≤ 0)

/-- The method `ColumnBase.performClientSort(items)`: `throw new Error('Not Implemented')`. -/
def ColumnBase.performClientSort (α : Type) (_items : Option (List α)) :
    Except JsError (List α) :=
  Except.error (JsError.error "Not Implemented")

/-- The method `performClientSort` of a Clip column: `ClipColumnBase` does not override it. -/
def ClipColumnBase.performClientSort (items : Option (List ClipItem)) :
    Except JsError (List ClipItem) :=
  ColumnBase.performClientSort ClipItem items

/-- The method `performClientSort` of a Video column: `VideoColumnBase` does not override
it. -/
def VideoColumnBase.performClientSort (items : Option (List VideoItem)) :
    Except JsError (List VideoItem) :=
  ColumnBase.performClientSort VideoItem items

/-- The method `LiveColumnBase.performClientSort(items, sort)`; `items = none` is a value that
is not an array. -/
def LiveColumnBase.performClientSort (c : Column) (items : Option (List LiveItem))
    (sort : Option SortOption) : Except JsError (List LiveItem) :=
  match items with
  | none => Except.ok []
  | some items =>
    let descriptor := match sort with
      | some s => some s
      | none => c.sort
    let fn := match descriptor with
      | some d => d.clientSort
      | none => none
    match fn with
    | none => Except.ok items
    | some fn => Except.ok (arraySort fn.apply items)

/-! ## Cache

The cache is a plain object: its prototype is `Object.prototype`, unmodified.  It is given
by its own entries in order.  The values stored are primitive values other than `null` and
`NaN` (strings, numbers, booleans) or `undefined`; a value `none` of an entry is
`undefined`. -/

/-- The names of the properties that a plain object inherits from `Object.prototype`. -/
def objectPrototypeKeys : List String :=
  ["constructor", "__defineGetter__", "__defineSetter__", "hasOwnProperty",
   "__lookupGetter__", "__lookupSetter__", "isPrototypeOf", "propertyIsEnumerable",
   "toString", "valueOf", "__proto__", "toLocaleString"]

/-- What a property read `object[key]` yields: `undefined`, a primitive value, or the member
`key` of `Object.prototype` found through the prototype chain (a function; for `__proto__`
the prototype object itself). -/
inductive ReadValue (V : Type) where
  | undefined
  | value (v : V)
  | inherited (key : String)
  deriving DecidableEq, Repr

/-- The value that an own entry, or an entry of a payload, reads as. -/
def ReadValue.ofEntry {V : Type} : Option V → ReadValue V
  | none => ReadValue.undefined
  | some v => ReadValue.value v

/-- The property read `object[key]`: the own entry when there is one, else the member of
`Object.prototype` of that name, else `undefined`. -/
def objGet {V : Type} (object : List (String × Option V)) (key : String) : ReadValue V :=
  match object.find? (fun entry => entry.1 == key) with
  | some entry => ReadValue.ofEntry entry.2
  | none => if includes objectPrototypeKeys key then ReadValue.inherited key
    else ReadValue.undefined

/-- The library call `deep_equals(object[key], value)` on a value read from the cache and a
primitive or `undefined` value of the payload: identity of primitives; a member of
`Object.prototype` equals none of them. -/
def deepEqualsRead {V : Type} [DecidableEq V] (cached : ReadValue V) (value : Option V) :
    Bool :=
  decide (cached = ReadValue.ofEntry value)

/-- The assignment `object[key] = value` of a primitive or `undefined` value: an own key keeps
its place; without an own key `__proto__`, the name `__proto__` reaches the setter of
`Object.prototype`, which ignores a value that is neither an object nor `null`, so nothing is
stored; any other new key is added last. -/
def objSet {V : Type} (object : List (String × Option V)) (key : String) (value : Option V) :
    List (String × Option V) :=
  if object.any (fun entry => entry.1 == key) then
    object.map (fun entry => if entry.1 == key then (key, value) else entry)
  else if key == "__proto__" then object
  else object ++ [(key, value)]

/-- The argument of `updateCache`: an object, given by `Object.entries(data)`, or a value
that is falsy or not of type `object`. -/
inductive CachePayload (V : Type) where
  | object (entries : List (String × Option V))
  | other

/-- The part of a column that the cache methods touch: `this.cache`, and the calls made on
`this.vue`, as the list of the caches passed to `saveCache` and the number of calls of
`refreshFromInst`. -/
structure CacheState (V : Type) where
  cache : Option (List (String × Option V)) := none
  saved : List (List (String × Option V)) := []
  refreshes : Nat := 0

/-- The loop of `updateCache` over `Object.entries(data)`, on the cache and the flag
`updated`. -/
def updateCache.loop {V : Type} [DecidableEq V] (cache : List (String × Option V))
    (updated : Bool) : List (String × Option V) → List (String × Option V) × Bool
  | [] => (cache, updated)
  | (key, value) :: rest =>
    if ! deepEqualsRead (objGet cache key) value then
      updateCache.loop (objSet cache key value) true rest
    else updateCache.loop cache updated rest

/-- The method `ColumnBase.updateCache(data)`. -/
def ColumnBase.updateCache {V : Type} [DecidableEq V] (st : CacheState V)
    (data : CachePayload V) : CacheState V :=
  match data with
  | CachePayload.other => st
  | CachePayload.object entries =>
    let cache := match st.cache with
      | some cache => cache
      | none => []
    let result := updateCache.loop cache false entries
    if result.2 then
      { cache := some result.1, saved := st.saved ++ [result.1], refreshes := st.refreshes + 1 }
    else
      { cache := some result.1, saved := st.saved, refreshes := st.refreshes }

/-! ## Subtitles -/

/-- A subtitle descriptor; a field that the returned object does not have is `none`.  The
number or text of `joined` is kept as its text. -/
structure Subtitle where
  icon : String
  i18n : Option String := none
  text : String
  count : Option Nat := none
  joined : Option String := none
  tip : Option String := none
  deriving DecidableEq, Repr

/-- The two loops of `getTagSubtitle` over tag ids: the label of each tag that the loader
resolves now is pushed to `tip`, after `decorate`. -/
def getTagSubtitle.loop (loader : TagLoader) (decorate : String → String) (tip : List String) :
    List String → List String
  | [] => tip
  | tag_id :: rest =>
    match loader tag_id with
    | some tag => getTagSubtitle.loop loader decorate (tip ++ [decorate tag.label]) rest
    | none => getTagSubtitle.loop loader decorate tip rest

/-- The method `ColumnBase.getTagSubtitle()`. -/
def ColumnBase.getTagSubtitle (loader : TagLoader) (c : Column) : Option Subtitle :=
  match c.settings with
  | none => none
  | some settings =>
    let tag_count := match settings.tags with
      | some tags => tags.length
      | none => 0
    let blocked_count := match settings.blocked_tags with
      | some tags => tags.length
      | none => 0
    if tag_count = 0 ∧ blocked_count = 0 then none
    else
      let tip : List String := []
      let tip :=
        if tag_count > 0 then getTagSubtitle.loop loader id tip (settings.tags.getD [])
        else tip
      let tip :=
        if blocked_count > 0 then
          getTagSubtitle.loop loader (fun label => "-" ++ label) tip
            (settings.blocked_tags.getD [])
        else tip
      match tip with
      | [only] => some { icon := "ffz-i-tags", text := only, tip := some only }
      | _ =>
        some
          { icon := "ffz-i-tags",
            i18n := some "addon.deck.sub.tags",
            text := "\x7bcount, plural, one \x7b\x7bjoined\x7d tag\x7d other \x7b\x7bjoined\x7d tags\x7d\x7d",
            count := some (tag_count + blocked_count),
            joined :=
              if blocked_count > 0 then
                some (toString tag_count ++ "-" ++ toString blocked_count)
              else some (toString tag_count),
            tip := if tip.length ≠ 0 then some (", ".intercalate tip) else none }

/-! ## Invariant of the derived lists -/

/-- The invariant of the derived lists of a column: each is null or non-empty. -/
def Column.DerivedListsOk (c : Column) : Prop :=
  c.required_tags ≠ some [] ∧ c.blocked_tags ≠ some [] ∧ c.filter_games ≠ some [] ∧
    c.filter_blocked_games ≠ some [] ∧ c.languages ≠ some []

/-! ## Example inputs -/

/-- The case mappings used in the examples: letter by letter on the letters `A` to `Z` and
`a` to `z`, on which the built-ins do the same. -/
instance asciiCaseMapping : CaseMapping where
  toLowerCase s := ⟨s.data.map Char.toLower⟩
  toUpperCase s := ⟨s.data.map Char.toUpper⟩

/-- The loader of the scenario of C1: tag `123` is the language tag of `en`, nothing else is
resolved. -/
def scenarioLoader : TagLoader := fun tag_id =>
  if tag_id = "123" then
    some { id := "123", label := "English", is_language := true, language := some "en" }
  else none

/-- A Live item of the scenario of C1: no tag `123`, broadcast language `en`. -/
def scenarioItemEn : LiveItem :=
  { id := "1", stream := some { tags := some [{ id := "7" }] },
    broadcastSettings := some { language := some "EN" } }

/-- A Video item carrying the tag `9`. -/
def taggedVideo : VideoItem :=
  { id := "v", contentTags := some [{ id := "9" }], language := some "en" }

/-- A Live item carrying the tag `9`, in the language of the scenario loader. -/
def taggedLive : LiveItem :=
  { id := "2", stream := some { tags := some [{ id := "9" }] },
    broadcastSettings := some { language := some "en" } }

/-- A column of the scenario: global settings present, no filter set. -/
def scenarioColumn : Column :=
  { kind := ColumnKind.live, global_settings := some {} }

/-- The scenario item with other tags and another language. -/
def scenarioItemFr : LiveItem :=
  { id := "1", stream := some { tags := some [{ id := "8" }, { id := "9" }] },
    broadcastSettings := some { language := some "fr" } }

/-- Settings with one required tag, as the old settings of a column. -/
def oldSettings : Settings := { tags := some ["a"] }

/-- Global settings that hide reruns, as the old global settings of a column. -/
def oldGlobalSettings : GlobalSettings := { hide_reruns := true }

/-- Settings whose lists are all present and empty. -/
def emptyListSettings : Settings :=
  { tags := some [], blocked_tags := some [], filter_games := some [],
    filter_blocked_games := some [], lang := some [] }

/-- The three video types used in the examples, standing for `Object.keys(VideoTypes)`. -/
def exampleVideoTypes : List String := ["ARCHIVE", "HIGHLIGHT", "UPLOAD"]

/-- Settings of a Video column that list every one of the example video types. -/
def allTypesSettings : Settings :=
  { types := some (TypesSetting.array ["ARCHIVE", "HIGHLIGHT", "UPLOAD"]) }

/-- A column whose tag lists overlap and differ in case. -/
def tagsColumn : Column :=
  { settings := some { tags := some ["a", "B", "a"], blocked_tags := some ["x"] },
    global_settings := some { tags := some ["b", "a"], blocked_tags := some ["x", "y"] } }

/-- The column `tagsColumn` with its input lists permuted. -/
def tagsColumnPermuted : Column :=
  { settings := some { tags := some ["a", "a", "B"], blocked_tags := some ["x"] },
    global_settings := some { tags := some ["a", "b"], blocked_tags := some ["y", "x"] } }

/-- A Live item with a stream and no category. -/
def liveNoCategory : LiveItem :=
  { id := "3", stream := some {}, broadcastSettings := some { language := some "en" } }

/-- A Clip item of the category `30`. -/
def clipCategory30 : ClipItem :=
  { id := "c30", game := some { id := "30", name := "Chess" } }

/-- A Clip item of the category `10`. -/
def clipCategory10 : ClipItem :=
  { id := "c10", game := some { id := "10", name := "Art" } }

/-- A Clip item whose category has the id `30` and the name `Chess`. -/
def clipChess : ClipItem :=
  { id := "c1", game := some { id := "30", name := "Chess" } }

/-- A Live item streaming a rerun, in the category `Chess`. -/
def liveRerun : LiveItem :=
  { id := "r", stream := some { type := some "rerun", tags := some [{ id := "7" }] },
    broadcastSettings := some { game := some { id := "30", name := "Chess" },
                                language := some "en" } }

/-- A Video item that is being recorded. -/
def videoRecording : VideoItem :=
  { id := "rec", status := some "RECORDING", broadcastType := some "ARCHIVE" }

/-- A Video item with the category, tags and language of `liveRerun`. -/
def videoLikeLiveRerun : VideoItem :=
  { id := "vr", game := some { id := "30", name := "Chess" }, language := some "en",
    contentTags := some [{ id := "7" }] }

/-- A Live item with the viewer count `n`. -/
def liveWithViewers (id : String) (n : Nat) : LiveItem :=
  { id := id, stream := some { viewersCount := some n } }

/-- A Live column as its constructor leaves it, with empty settings objects. -/
def liveColumn : Column := ColumnBase.new ColumnKind.live (some {}) (some {})

/-- A cache state with the keys `cover` and `avatar`, and no call on the host yet. -/
def cacheState : CacheState Nat :=
  { cache := some [("cover", some 1), ("avatar", some 2)] }

/-- A column whose settings require the one tag `123`. -/
def oneTagColumn : Column :=
  ColumnBase.new ColumnKind.live (some { tags := some ["123"] }) (some {})

/-- A column whose settings require the tags `123` and `7` and block the tag `9`. -/
def threeTagColumn : Column :=
  ColumnBase.new ColumnKind.live (some { tags := some ["123", "7"], blocked_tags := some ["9"] })
    (some {})

/-- A loader that resolves the tags `123` and `9`. -/
def twoTagLoader : TagLoader := fun tag_id =>
  if tag_id = "123" then
    some { id := "123", label := "English", is_language := true, language := some "en" }
  else if tag_id = "9" then some { id := "9", label := "Chatty" }
  else none

/-- A Video column with the three example types, whose settings list `ARCHIVE` and `UPLOAD`
in `types`. -/
def typedVideoColumn : Column :=
  VideoColumnBase.new exampleVideoTypes
    (some { types := some (TypesSetting.array ["ARCHIVE", "UPLOAD"]) }) (some {})

/-- A Video item that declares the broadcast type `HIGHLIGHT`. -/
def videoHighlight : VideoItem :=
  { id := "h", broadcastType := some "HIGHLIGHT" }

/-- A Video item that declares a broadcast type which is no key of the example types. -/
def videoPremiere : VideoItem :=
  { id := "p", broadcastType := some "PREMIERE" }

/-- A Video item that declares no broadcast type. -/
def videoUntyped : VideoItem :=
  { id := "u" }

/-! ## Lemmas on the helpers -/

theorem includes_iff (xs : List String) (x : String) : includes xs x = true ↔ x ∈ xs := by
  simp [includes]

theorem includes_false_iff (xs : List String) (x : String) : includes xs x = false ↔ x ∉ xs := by
  simp [includes]

theorem truthyStr_iff (v : Option String) :
    truthyStr v = true ↔ ∃ s, v = some s ∧ s ≠ "" := by
  cases v with
  | none => simp [truthyStr]
  | some s => simp [truthyStr]

/-! ## Lemmas on the tag loops -/

theorem requiredTagsLoop_iff (loader : TagLoader) (tags : List String) (lang : Option String)
    (required : List String) :
    requiredTagsLoop loader tags lang required = true ↔
      ∀ tag_id ∈ required, tag_id ∈ tags ∨
        ∃ tag, loader tag_id = some tag ∧ tag.is_language = true ∧
          truthyStr lang = true ∧ lang = tag.language := by
  induction required with
  | nil => simp [requiredTagsLoop]
  | cons tag_id rest ih =>
    simp only [requiredTagsLoop, List.mem_cons, forall_eq_or_imp]
    by_cases hin : tag_id ∈ tags
    · have hi : includes tags tag_id = true := (includes_iff _ _).2 hin
      simp [hi, hin, ih]
    · have hi : includes tags tag_id = false := (includes_false_iff _ _).2 hin
      simp only [hi, Bool.not_false, if_true, hin, false_or]
      cases hl : loader tag_id with
      | none => simp
      | some tag =>
        by_cases hc : (tag.is_language && truthyStr lang && decide (lang = tag.language)) = true
        · simp only [hc, if_true, ih]
          simp only [Bool.and_eq_true, decide_eq_true_eq] at hc
          constructor
          · intro h
            exact ⟨⟨tag, rfl, hc.1.1, hc.1.2, hc.2⟩, h⟩
          · intro h
            exact h.2
        · simp only [hc]
          simp only [Bool.and_eq_true, decide_eq_true_eq] at hc
          constructor
          · intro h
            exact absurd h (by simp)
          · rintro ⟨⟨tag2, h1, h2, h3, h4⟩, _⟩
            cases h1
            exact absurd ⟨⟨h2, h3⟩, h4⟩ hc

theorem blockedTagsLoop_iff (tags : List String) (blocked : List String) :
    blockedTagsLoop tags blocked = true ↔ ∀ tag_id ∈ blocked, tag_id ∉ tags := by
  induction blocked with
  | nil => simp [blockedTagsLoop]
  | cons tag_id rest ih =>
    simp only [blockedTagsLoop, List.mem_cons, forall_eq_or_imp]
    by_cases hin : tag_id ∈ tags
    · have hi : includes tags tag_id = true := (includes_iff _ _).2 hin
      simp [hi, hin]
    · have hi : includes tags tag_id = false := (includes_false_iff _ _).2 hin
      simp [hi, hin, ih]

theorem tagsBlock_iff (loader : TagLoader) (tags : List String) (lang : Option String)
    (required_tags blocked_tags : Option (List String)) :
    tagsBlock loader tags lang required_tags blocked_tags = true ↔
      (∀ tag_id ∈ required_tags.getD [], tag_id ∈ tags ∨
        ∃ tag, loader tag_id = some tag ∧ tag.is_language = true ∧
          truthyStr lang = true ∧ lang = tag.language) ∧
      (∀ tag_id ∈ blocked_tags.getD [], tag_id ∉ tags) := by
  cases required_tags with
  | none =>
    cases blocked_tags with
    | none => simp [tagsBlock]
    | some blocked => simp [tagsBlock, blockedTagsLoop_iff]
  | some required =>
    cases blocked_tags with
    | none =>
      simp only [tagsBlock, Option.isSome_some, Option.isSome_none, Bool.or_false, if_true,
        Option.getD_some, Option.getD_none, List.not_mem_nil, false_implies, implies_true,
        and_true]
      rw [← requiredTagsLoop_iff]
      cases requiredTagsLoop loader tags lang required <;> simp
    | some blocked =>
      simp only [tagsBlock, Option.isSome_some, Bool.or_true, if_true, Option.getD_some]
      rw [← requiredTagsLoop_iff, ← blockedTagsLoop_iff]
      cases requiredTagsLoop loader tags lang required <;> simp

theorem tagsBlock_none_none (loader : TagLoader) (tags : List String) (lang : Option String) :
    tagsBlock loader tags lang none none = true := by
  simp [tagsBlock]

/-- The predicate `filterStream` is its value without tag lists, and the tag block. -/
theorem filterStream_split [CaseMapping] (loader : TagLoader) (item : LiveItem) (hide_reruns : Bool)
    (blocked_games required_tags blocked_tags filter_games filter_blocked_games :
      Option (List String)) :
    LiveColumnBase.filterStream loader item hide_reruns blocked_games required_tags blocked_tags
        filter_games filter_blocked_games =
      (LiveColumnBase.filterStream loader item hide_reruns blocked_games none none
          filter_games filter_blocked_games &&
        tagsBlock loader (item.getTagIds.getD []) item.lang required_tags blocked_tags) := by
  unfold LiveColumnBase.filterStream
  cases item.stream with
  | none => simp
  | some stream =>
    simp only [tagsBlock_none_none]
    split_ifs <;> simp

/-- The predicate `filterVideo` is its value without tag lists, and the tag block. -/
theorem filterVideo_split [CaseMapping] (loader : TagLoader) (item : VideoItem) (no_recordings : Bool)
    (types blocked_games required_tags blocked_tags filter_games filter_blocked_games :
      Option (List String)) :
    VideoColumnBase.filterVideo loader item no_recordings types blocked_games required_tags
        blocked_tags filter_games filter_blocked_games =
      (VideoColumnBase.filterVideo loader item no_recordings types blocked_games none none
          filter_games filter_blocked_games &&
        tagsBlock loader (item.getTagIds.getD []) item.lang required_tags blocked_tags) := by
  unfold VideoColumnBase.filterVideo
  simp only [tagsBlock_none_none]
  split_ifs <;> simp

/-- The language test `lang && lang === tag.language` of `filterStream`, on the item's fields. -/
theorem liveLang_match_iff [CaseMapping] (item : LiveItem) (code : Option String) :
    (truthyStr item.lang = true ∧ item.lang = code) ↔
      ∃ bs language, item.broadcastSettings = some bs ∧ bs.language = some language ∧
        language ≠ "" ∧ toLowerCase language ≠ "" ∧ code = some (toLowerCase language) := by
  unfold LiveItem.lang
  cases hbs : item.broadcastSettings with
  | none => simp [truthyStr]
  | some bs =>
    cases hl : bs.language with
    | none => simp [truthyStr, hl]
    | some language =>
      by_cases he : language = ""
      · simp [truthyStr, hl, he]
      · simp only [he, if_false, Option.some.injEq, exists_and_left, exists_eq_left', hl,
          ne_eq, not_false_eq_true, true_and]
        constructor
        · rintro ⟨h1, h2⟩
          refine ⟨?_, h2.symm⟩
          simpa [truthyStr] using h1
        · rintro ⟨h1, h2⟩
          refine ⟨?_, h2.symm⟩
          simpa [truthyStr] using h1

/-! ## Claims on tag matching -/

/-- C1: for a Live item that passes the stream, rerun and category checks (the predicate holds
without tag lists), `filterStream` with required tags `R` and blocked tags `B` returns true
exactly when (a) every id of `R` is among the item's tag ids, or the loader resolves it now to
a descriptor flagged as a language whose code is the lower-cased broadcast language of the
item, the language and its lower-cased form being non-empty, and (b) no id of `B` is among the
item's tag ids; an absent tag list is the empty list.  Lower-casing is the built-in
`toLowerCase`, whatever it maps a string to.  This covers every `R` and `B` that are not both
null. -/
theorem filterStream_tags_iff [CaseMapping] (loader : TagLoader) (item : LiveItem) (hide_reruns : Bool)
    (blocked_games filter_games filter_blocked_games R B : Option (List String))
    (hpass : LiveColumnBase.filterStream loader item hide_reruns blocked_games none none
      filter_games filter_blocked_games = true) :
    LiveColumnBase.filterStream loader item hide_reruns blocked_games R B
        filter_games filter_blocked_games = true ↔
      (∀ tag_id ∈ R.getD [], tag_id ∈ item.getTagIds.getD [] ∨
        ∃ tag, loader tag_id = some tag ∧ tag.is_language = true ∧
          ∃ bs language, item.broadcastSettings = some bs ∧ bs.language = some language ∧
            language ≠ "" ∧ toLowerCase language ≠ "" ∧
            tag.language = some (toLowerCase language)) ∧
      (∀ tag_id ∈ B.getD [], tag_id ∉ item.getTagIds.getD []) := by
  rw [filterStream_split, hpass, Bool.true_and, tagsBlock_iff]
  constructor
  · rintro ⟨hr, hb⟩
    refine ⟨fun tag_id hmem => ?_, hb⟩
    rcases hr tag_id hmem with h | ⟨tag, h1, h2, h3, h4⟩
    · exact Or.inl h
    · exact Or.inr ⟨tag, h1, h2, (liveLang_match_iff item tag.language).1 ⟨h3, h4⟩⟩
  · rintro ⟨hr, hb⟩
    refine ⟨fun tag_id hmem => ?_, hb⟩
    rcases hr tag_id hmem with h | ⟨tag, h1, h2, h3⟩
    · exact Or.inl h
    · have h4 := (liveLang_match_iff item tag.language).2 h3
      exact Or.inr ⟨tag, h1, h2, h4.1, h4.2⟩

/-- Witness of C1: the scenario of the required tag `123`, which the item does not carry and
which the loader resolves to the language tag of `en`.  The item whose broadcast language is
`EN` is accepted, by the theorem, lower-casing `EN` to `en`; the item whose language is `fr`
is rejected. -/
theorem filterStream_tags_iff_witness :
    LiveColumnBase.filterStream scenarioLoader scenarioItemEn false none none none none none
        = true ∧
    toLowerCase "EN" = "en" ∧
    LiveColumnBase.filterStream scenarioLoader scenarioItemEn false none (some ["123"])
        (some ["9"]) none none = true ∧
    LiveColumnBase.filterStream scenarioLoader scenarioItemFr false none (some ["123"])
        none none none = false :=
  ⟨by decide, by decide,
    (filterStream_tags_iff scenarioLoader scenarioItemEn false none none none (some ["123"])
      (some ["9"]) (by decide)).2
      ⟨fun tag_id hmem => by
          have h : tag_id = "123" := by simpa using hmem
          subst h
          exact Or.inr
            ⟨{ id := "123", label := "English", is_language := true, language := some "en" },
              by decide, rfl, { language := some "EN" }, "EN", rfl, rfl, by decide,
              by decide, by decide⟩,
        fun tag_id hmem => by
          have h : tag_id = "9" := by simpa using hmem
          subst h
          decide⟩,
    by decide⟩

/-- C2: when the blocked-tag list shares an id with the item's tag ids, `filterStream` and
`filterVideo` return false, whatever the required tags, the loader, the language and the
other parameters are. -/
theorem blocked_tag_excludes [CaseMapping] (loader : TagLoader) (B : List String)
    (R blocked_games filter_games filter_blocked_games : Option (List String)) :
    (∀ (item : LiveItem) (hide_reruns : Bool),
      (∃ tag_id, tag_id ∈ B ∧ tag_id ∈ item.getTagIds.getD []) →
      LiveColumnBase.filterStream loader item hide_reruns blocked_games R (some B)
        filter_games filter_blocked_games = false) ∧
    (∀ (item : VideoItem) (no_recordings : Bool) (types : Option (List String)),
      (∃ tag_id, tag_id ∈ B ∧ tag_id ∈ item.getTagIds.getD []) →
      VideoColumnBase.filterVideo loader item no_recordings types blocked_games R (some B)
        filter_games filter_blocked_games = false) := by
  have key : ∀ (tags : List String) (lang : Option String),
      (∃ tag_id, tag_id ∈ B ∧ tag_id ∈ tags) → tagsBlock loader tags lang R (some B) = false := by
    intro tags lang ⟨tag_id, h1, h2⟩
    cases h : tagsBlock loader tags lang R (some B) with
    | false => rfl
    | true =>
      have h3 := ((tagsBlock_iff loader tags lang R (some B)).1 h).2 tag_id (by simpa using h1)
      exact absurd h2 h3
  constructor
  · intro item hide_reruns hex
    rw [filterStream_split, key _ _ hex, Bool.and_false]
  · intro item no_recordings types hex
    rw [filterVideo_split, key _ _ hex, Bool.and_false]

/-- Witness of C2: tag `9` is blocked and carried, the required tag `123` is satisfied by
the language. -/
theorem blocked_tag_excludes_witness :
    LiveColumnBase.filterStream scenarioLoader taggedLive false none (some ["123"])
        (some ["9"]) none none = false ∧
    VideoColumnBase.filterVideo scenarioLoader taggedVideo false none none (some ["123"])
        (some ["9"]) none none = false :=
  ⟨(blocked_tag_excludes scenarioLoader ["9"] (some ["123"]) none none none).1 taggedLive false
      ⟨"9", by decide, by decide⟩,
    (blocked_tag_excludes scenarioLoader ["9"] (some ["123"]) none none none).2 taggedVideo false
      none ⟨"9", by decide, by decide⟩⟩

/-! ## Claims on `filterItems` as a filter -/

theorem filter_sublist_of_imp {α : Type} (p q : α → Bool) (h : ∀ a, p a = true → q a = true)
    (l : List α) : (l.filter p).Sublist (l.filter q) := by
  induction l with
  | nil => simp
  | cons a l ih =>
    by_cases hp : p a = true
    · have hq := h a hp
      simp only [List.filter_cons, hp, hq, if_true]
      exact ih.cons₂ a
    · by_cases hq : q a = true
      · simp only [List.filter_cons, hp, hq, if_true, if_false]
        exact ih.cons a
      · simp only [List.filter_cons, hp, hq, if_false]
        exact ih

/-- C3: required tags are monotonically restrictive.  Let `R'` hold exactly the ids of `R`
(null: none) and the id `x`.  A Live item that `filterStream` accepts with required tags `R'`
is accepted with required tags `R`, all other parameters and the loader being the same; and
`filterItems` of a column with required tags `R'` returns a sublist of what the same column
with required tags `R` returns (both raise when `global_settings` is null). -/
theorem required_tags_monotone [CaseMapping] (loader : TagLoader) (R : Option (List String)) (x : String)
    (R' : List String) (hR' : ∀ y, y ∈ R' ↔ y = x ∨ y ∈ R.getD []) :
    (∀ (item : LiveItem) (hide_reruns : Bool)
        (blocked_games B filter_games filter_blocked_games : Option (List String)),
      LiveColumnBase.filterStream loader item hide_reruns blocked_games (some R') B
          filter_games filter_blocked_games = true →
      LiveColumnBase.filterStream loader item hide_reruns blocked_games R B
          filter_games filter_blocked_games = true) ∧
    (∀ (c : Column) (items : Option (List LiveItem)),
      match LiveColumnBase.filterItems loader { c with required_tags := some R' } items,
          LiveColumnBase.filterItems loader { c with required_tags := R } items with
      | Except.ok larger, Except.ok smaller => larger.Sublist smaller
      | Except.error e, Except.error e' => e = e'
      | _, _ => False) := by
  have key : ∀ (item : LiveItem) (hide_reruns : Bool)
      (blocked_games B filter_games filter_blocked_games : Option (List String)),
      LiveColumnBase.filterStream loader item hide_reruns blocked_games (some R') B
          filter_games filter_blocked_games = true →
      LiveColumnBase.filterStream loader item hide_reruns blocked_games R B
          filter_games filter_blocked_games = true := by
    intro item hide_reruns blocked_games B filter_games filter_blocked_games h
    rw [filterStream_split, Bool.and_eq_true, tagsBlock_iff] at h
    rw [filterStream_split, Bool.and_eq_true, tagsBlock_iff]
    refine ⟨h.1, fun tag_id hmem => ?_, h.2.2⟩
    exact h.2.1 tag_id (by simpa using (hR' tag_id).2 (Or.inr hmem))
  refine ⟨key, ?_⟩
  intro c items
  cases items with
  | none => simp [LiveColumnBase.filterItems]
  | some items =>
    cases hg : c.global_settings with
    | none => simp [LiveColumnBase.filterItems, hg]
    | some g =>
      simp only [LiveColumnBase.filterItems, hg]
      exact filter_sublist_of_imp _ _ (fun item h => key item _ _ _ _ _ h) items

/-- Witness of C3: the required set `7` extended by `123` on the scenario item. -/
theorem required_tags_monotone_witness :
    (LiveColumnBase.filterStream scenarioLoader scenarioItemEn false none (some ["7", "123"])
        none none none = true →
      LiveColumnBase.filterStream scenarioLoader scenarioItemEn false none (some ["7"])
        none none none = true) ∧
    (match LiveColumnBase.filterItems scenarioLoader
          { scenarioColumn with required_tags := some ["7", "123"] }
          (some [scenarioItemEn, taggedLive]),
        LiveColumnBase.filterItems scenarioLoader
          { scenarioColumn with required_tags := some ["7"] }
          (some [scenarioItemEn, taggedLive]) with
      | Except.ok larger, Except.ok smaller => larger.Sublist smaller
      | Except.error e, Except.error e' => e = e'
      | _, _ => False) :=
  have h := required_tags_monotone scenarioLoader (some ["7"]) "123" ["7", "123"]
    (by intro y; simp; tauto)
  ⟨h.1 scenarioItemEn false none none none none,
    h.2 scenarioColumn (some [scenarioItemEn, taggedLive])⟩

/-- C4: filtering is idempotent.  For the Live, Clip and Video columns, every column state,
loader and array of items, filtering the result of `filterItems` again returns that result;
when `filterItems` raises (a null `global_settings`, or null `settings` of a Video column)
both sides raise. -/
theorem filterItems_idempotent [CaseMapping] (loader : TagLoader) (c : Column) :
    (∀ items : List LiveItem,
      (LiveColumnBase.filterItems loader c (some items) >>= fun result =>
        LiveColumnBase.filterItems loader c (some result)) =
      LiveColumnBase.filterItems loader c (some items)) ∧
    (∀ items : List ClipItem,
      (ClipColumnBase.filterItems c (some items) >>= fun result =>
        ClipColumnBase.filterItems c (some result)) =
      ClipColumnBase.filterItems c (some items)) ∧
    (∀ items : List VideoItem,
      (VideoColumnBase.filterItems loader c (some items) >>= fun result =>
        VideoColumnBase.filterItems loader c (some result)) =
      VideoColumnBase.filterItems loader c (some items)) := by
  refine ⟨fun items => ?_, fun items => ?_, fun items => ?_⟩
  · cases hg : c.global_settings with
    | none => simp [LiveColumnBase.filterItems, hg, bind, Except.bind]
    | some g => simp [LiveColumnBase.filterItems, hg, bind, Except.bind, List.filter_filter]
  · cases hg : c.global_settings with
    | none => simp [ClipColumnBase.filterItems, hg, bind, Except.bind]
    | some g => simp [ClipColumnBase.filterItems, hg, bind, Except.bind, List.filter_filter]
  · cases hs : c.settings with
    | none => simp [VideoColumnBase.filterItems, hs, bind, Except.bind]
    | some s =>
      cases hg : c.global_settings with
      | none => simp [VideoColumnBase.filterItems, hs, hg, bind, Except.bind]
      | some g =>
        simp [VideoColumnBase.filterItems, hs, hg, bind, Except.bind, List.filter_filter]

/-- C5: with required and blocked tags both null the tag block is skipped.  Two Live items
with the same stream presence, stream type and category get the same result from
`filterStream`, whatever their tags and languages and whatever the two loaders resolve; two
Video items with the same status, broadcast type and category get the same result from
`filterVideo`. -/
theorem no_tag_lists_skips_tags [CaseMapping] (loader loader' : TagLoader)
    (blocked_games filter_games filter_blocked_games : Option (List String)) :
    (∀ (a b : LiveItem) (hide_reruns : Bool),
      a.stream.map Stream.type = b.stream.map Stream.type → a.game = b.game →
      LiveColumnBase.filterStream loader a hide_reruns blocked_games none none
          filter_games filter_blocked_games =
        LiveColumnBase.filterStream loader' b hide_reruns blocked_games none none
          filter_games filter_blocked_games) ∧
    (∀ (a b : VideoItem) (no_recordings : Bool) (types : Option (List String)),
      a.status = b.status → a.broadcastType = b.broadcastType → a.game = b.game →
      VideoColumnBase.filterVideo loader a no_recordings types blocked_games none none
          filter_games filter_blocked_games =
        VideoColumnBase.filterVideo loader' b no_recordings types blocked_games none none
          filter_games filter_blocked_games) := by
  constructor
  · intro a b hide_reruns hs hg
    unfold LiveColumnBase.filterStream
    simp only [tagsBlock_none_none, hg]
    cases ha : a.stream with
    | none =>
      cases hb : b.stream with
      | none => rfl
      | some sb => simp [ha, hb] at hs
    | some sa =>
      cases hb : b.stream with
      | none => simp [ha, hb] at hs
      | some sb =>
        simp only [ha, hb, Option.map_some', Option.some.injEq] at hs
        simp only [hs]
  · intro a b no_recordings types hs hb hg
    unfold VideoColumnBase.filterVideo
    simp only [tagsBlock_none_none, hs, hb, hg]

/-- Witness of C5: items that differ in tags and language only, under two loaders. -/
theorem no_tag_lists_skips_tags_witness :
    LiveColumnBase.filterStream scenarioLoader scenarioItemEn true none none none none none =
      LiveColumnBase.filterStream (fun _ => none) scenarioItemFr true none none none none none ∧
    VideoColumnBase.filterVideo scenarioLoader taggedVideo true none none none none none none =
      VideoColumnBase.filterVideo (fun _ => none)
        { taggedVideo with contentTags := none, language := some "fr" }
        true none none none none none none :=
  ⟨(no_tag_lists_skips_tags scenarioLoader (fun _ => none) none none none).1
      scenarioItemEn scenarioItemFr true (by decide) (by decide),
    (no_tag_lists_skips_tags scenarioLoader (fun _ => none) none none none).2
      taggedVideo { taggedVideo with contentTags := none, language := some "fr" }
      true none (by decide) (by decide) (by decide)⟩

/-! ## Claims on settings normalisation -/

/-- C6: the code at the inputs where it departs from the claim.  With `new_settings` null,
both methods return `! old_settings`: false when the old settings were present (clearing does
not signal), true when they were absent too. -/
theorem shouldInvalidate_null_new_settings :
    shouldSettingsInvalidate none (some oldSettings) = false ∧
    shouldSettingsInvalidate none none = true ∧
    shouldGlobalSettingsInvalidate none (some oldGlobalSettings) = false ∧
    shouldGlobalSettingsInvalidate none none = true := by
  decide

theorem mem_setAdd (set : List String) (x y : String) :
    y ∈ setAdd set x ↔ y ∈ set ∨ y = x := by
  unfold setAdd
  by_cases h : includes set x = true
  · have hx := (includes_iff _ _).1 h
    simp only [h, if_true]
    constructor
    · intro hy
      exact Or.inl hy
    · rintro (hy | hy)
      · exact hy
      · exact hy ▸ hx
  · simp [h]

theorem nodup_setAdd (set : List String) (x : String) (h : set.Nodup) :
    (setAdd set x).Nodup := by
  unfold setAdd
  by_cases hi : includes set x = true
  · simpa [hi] using h
  · have hx : x ∉ set := fun hm => hi ((includes_iff _ _).2 hm)
    simp only [hi]
    refine List.nodup_append.2 ⟨h, List.nodup_singleton x, ?_⟩
    intro a ha hax
    rw [List.mem_singleton] at hax
    exact hx (hax ▸ ha)

theorem setAdd_ne_nil (set : List String) (x : String) : setAdd set x ≠ [] := by
  unfold setAdd
  by_cases hi : includes set x = true
  · have hx := (includes_iff _ _).1 hi
    simp only [hi, if_true]
    exact List.ne_nil_of_mem hx
  · simp [hi]

theorem mem_setAddEach (f : String → String) (xs set : List String) (y : String) :
    y ∈ setAddEach f set xs ↔ y ∈ set ∨ ∃ x, x ∈ xs ∧ f x = y := by
  induction xs generalizing set with
  | nil => simp [setAddEach]
  | cons x xs ih =>
    simp only [setAddEach, ih, mem_setAdd, List.mem_cons, exists_eq_or_imp, or_assoc]
    constructor
    · rintro (h | h | h)
      · exact Or.inl h
      · exact Or.inr (Or.inl h.symm)
      · exact Or.inr (Or.inr h)
    · rintro (h | h | h)
      · exact Or.inl h
      · exact Or.inr (Or.inl h.symm)
      · exact Or.inr (Or.inr h)

theorem nodup_setAddEach (f : String → String) (xs set : List String) (h : set.Nodup) :
    (setAddEach f set xs).Nodup := by
  induction xs generalizing set with
  | nil => simpa [setAddEach] using h
  | cons x xs ih =>
    simp only [setAddEach]
    exact ih _ (nodup_setAdd set (f x) h)

theorem setAddEach_eq_nil_iff (f : String → String) (xs set : List String) :
    setAddEach f set xs = [] ↔ set = [] ∧ xs = [] := by
  induction xs generalizing set with
  | nil => simp [setAddEach]
  | cons x xs ih =>
    simp only [setAddEach, ih, setAdd_ne_nil, false_and, false_iff]
    simp

/-- The value `set.size > 0 ? [...set] : null`. -/
theorem sizeTest_ne_some_nil (set : List String) :
    (if set.length > 0 then some set else none) ≠ some [] := by
  cases set with
  | nil => simp
  | cons x xs => simp

theorem copyIfNonEmpty_ne_some_nil (settings : Option Settings)
    (field : Settings → Option (List String)) :
    copyIfNonEmpty settings field ≠ some [] := by
  unfold copyIfNonEmpty
  cases settings with
  | none => simp
  | some s =>
    cases h : field s with
    | none => simp [h]
    | some xs =>
      cases xs with
      | nil => simp [h]
      | cons x xs => simp [h]

/-- The required tags that `updateTags` computes. -/
theorem updateTags_required_tags (c : Column) :
    (updateTags c).required_tags =
      (let set := setAddEach id (setAddEach id [] ((c.settings.bind Settings.tags).getD []))
        ((c.global_settings.bind GlobalSettings.tags).getD [])
       if set.length > 0 then some set else none) := by
  unfold updateTags
  cases hs : c.settings with
  | none =>
    cases hg : c.global_settings with
    | none => simp [setAddEach]
    | some g => cases ht : g.tags <;> simp [setAddEach, ht]
  | some s =>
    cases hst : s.tags <;> cases hg : c.global_settings with
    | none => simp [setAddEach, hst]
    | some g => cases ht : g.tags <;> simp [setAddEach, ht, hst]

/-- The blocked tags that `updateTags` computes. -/
theorem updateTags_blocked_tags (c : Column) :
    (updateTags c).blocked_tags =
      (let set := setAddEach id
        (setAddEach id [] ((c.settings.bind Settings.blocked_tags).getD []))
        ((c.global_settings.bind GlobalSettings.blocked_tags).getD [])
       if set.length > 0 then some set else none) := by
  unfold updateTags
  cases hs : c.settings with
  | none =>
    cases hg : c.global_settings with
    | none => simp [setAddEach]
    | some g => cases ht : g.blocked_tags <;> simp [setAddEach, ht]
  | some s =>
    cases hst : s.blocked_tags <;> cases hg : c.global_settings with
    | none => simp [setAddEach, hst]
    | some g => cases ht : g.blocked_tags <;> simp [setAddEach, ht, hst]

/-- The languages that `updateLanguages` computes. -/
theorem updateLanguages_languages [CaseMapping] (c : Column) :
    (updateLanguages c).languages =
      (let set := setAddEach toUpperCase
        (setAddEach toUpperCase [] ((c.settings.bind Settings.lang).getD []))
        ((c.global_settings.bind GlobalSettings.lang).getD [])
       if set.length > 0 then some set else none) := by
  unfold updateLanguages
  cases hs : c.settings with
  | none =>
    cases hg : c.global_settings with
    | none => simp [setAddEach]
    | some g => cases ht : g.lang <;> simp [setAddEach, ht]
  | some s =>
    cases hst : s.lang <;> cases hg : c.global_settings with
    | none => simp [setAddEach, hst]
    | some g => cases ht : g.lang <;> simp [setAddEach, ht, hst]

/-- The three updates that every entry point runs establish the invariant, from any state. -/
theorem derivedListsOk_updates [CaseMapping] (c : Column) :
    (updateLanguages (updateFilters (updateTags c))).DerivedListsOk := by
  refine ⟨?_, ?_, ?_, ?_, ?_⟩
  · show (updateTags c).required_tags ≠ some []
    rw [updateTags_required_tags]
    exact sizeTest_ne_some_nil _
  · show (updateTags c).blocked_tags ≠ some []
    rw [updateTags_blocked_tags]
    exact sizeTest_ne_some_nil _
  · exact copyIfNonEmpty_ne_some_nil _ _
  · exact copyIfNonEmpty_ne_some_nil _ _
  · rw [updateLanguages_languages]
    exact sizeTest_ne_some_nil _

theorem derivedListsOk_updateSort (c : Column) (h : c.DerivedListsOk) :
    (updateSort c).DerivedListsOk := h

theorem derivedListsOk_invalidate (c : Column) (h : c.DerivedListsOk) :
    (invalidate c).DerivedListsOk := h

/-- The method `updateTypes` assigns `types` and nothing else. -/
theorem updateTypes_eq (videoTypes : List String) (c : Column) :
    ∃ types, VideoColumnBase.updateTypes videoTypes c = { c with types := types } := by
  unfold VideoColumnBase.updateTypes
  simp only
  generalize (match c.settings with
    | some s => s.types
    | none => none) = t
  cases t with
  | none => exact ⟨none, rfl⟩
  | some t =>
    cases t with
    | notArray => exact ⟨none, rfl⟩
    | array ts =>
      by_cases hl : ts.length = 0
      · exact ⟨none, by simp only [hl, if_true]⟩
      · exact ⟨some (updateTypes.loop ts [] videoTypes), by simp only [hl, if_false]⟩

theorem derivedListsOk_updateTypes (videoTypes : List String) (c : Column)
    (h : c.DerivedListsOk) : (VideoColumnBase.updateTypes videoTypes c).DerivedListsOk := by
  obtain ⟨types, ht⟩ := updateTypes_eq videoTypes c
  rw [ht]
  exact h

theorem derivedListsOk_new [CaseMapping] (kind : ColumnKind) (settings : Option Settings)
    (global_settings : Option GlobalSettings) :
    (ColumnBase.new kind settings global_settings).DerivedListsOk :=
  derivedListsOk_updateSort _ (derivedListsOk_updates _)

theorem derivedListsOk_updateSettings [CaseMapping] (c : Column) (settings : Option Settings) :
    (ColumnBase.updateSettings c settings).DerivedListsOk := by
  unfold ColumnBase.updateSettings
  simp only
  split
  · exact derivedListsOk_invalidate _ (derivedListsOk_updateSort _ (derivedListsOk_updates _))
  · exact derivedListsOk_updateSort _ (derivedListsOk_updates _)

theorem derivedListsOk_updateGlobalSettings [CaseMapping] (c : Column) (settings : Option GlobalSettings) :
    (ColumnBase.updateGlobalSettings c settings).DerivedListsOk := by
  unfold ColumnBase.updateGlobalSettings
  simp only
  split
  · exact derivedListsOk_invalidate _ (derivedListsOk_updates _)
  · exact derivedListsOk_updates _

theorem new_required_tags [CaseMapping] (kind : ColumnKind) (settings : Option Settings)
    (global_settings : Option GlobalSettings) :
    (ColumnBase.new kind settings global_settings).required_tags =
      (updateTags
        { kind := kind, settings := settings, global_settings := global_settings }).required_tags :=
  rfl

theorem new_blocked_tags [CaseMapping] (kind : ColumnKind) (settings : Option Settings)
    (global_settings : Option GlobalSettings) :
    (ColumnBase.new kind settings global_settings).blocked_tags =
      (updateTags
        { kind := kind, settings := settings, global_settings := global_settings }).blocked_tags :=
  rfl

/-- C7: after the constructor, `updateSettings` or `updateGlobalSettings` (of `ColumnBase`,
and of `VideoColumnBase`, which adds `updateTypes`), from any settings, any global settings
and any earlier state, each of `required_tags`, `blocked_tags`, `filter_games`,
`filter_blocked_games` and `languages` is null or non-empty; and an input list `[]` for the
games or (with no global tags) the tags gives null. -/
theorem derived_lists_null_or_nonempty [CaseMapping] :
    (∀ kind settings global_settings,
      (ColumnBase.new kind settings global_settings).DerivedListsOk) ∧
    (∀ c settings, (ColumnBase.updateSettings c settings).DerivedListsOk) ∧
    (∀ c settings, (ColumnBase.updateGlobalSettings c settings).DerivedListsOk) ∧
    (∀ videoTypes settings global_settings,
      (VideoColumnBase.new videoTypes settings global_settings).DerivedListsOk) ∧
    (∀ videoTypes c settings,
      (VideoColumnBase.updateSettings videoTypes c settings).DerivedListsOk) ∧
    (∀ kind (s : Settings) global_settings, s.filter_games = some [] →
      (ColumnBase.new kind (some s) global_settings).filter_games = none) ∧
    (∀ kind (s : Settings) global_settings, s.filter_blocked_games = some [] →
      (ColumnBase.new kind (some s) global_settings).filter_blocked_games = none) ∧
    (∀ kind (s : Settings) (global_settings : Option GlobalSettings), s.tags = some [] →
      (global_settings.bind GlobalSettings.tags).getD [] = [] →
      (ColumnBase.new kind (some s) global_settings).required_tags = none) ∧
    (∀ kind (s : Settings) (global_settings : Option GlobalSettings),
      s.blocked_tags = some [] →
      (global_settings.bind GlobalSettings.blocked_tags).getD [] = [] →
      (ColumnBase.new kind (some s) global_settings).blocked_tags = none) := by
  refine ⟨derivedListsOk_new, derivedListsOk_updateSettings,
    derivedListsOk_updateGlobalSettings, ?_, ?_, ?_, ?_, ?_, ?_⟩
  · intro videoTypes settings global_settings
    exact derivedListsOk_updateTypes _ _ (derivedListsOk_new _ _ _)
  · intro videoTypes c settings
    exact derivedListsOk_updateTypes _ _ (derivedListsOk_updateSettings _ _)
  · intro kind s global_settings h
    show copyIfNonEmpty (some s) Settings.filter_games = none
    simp [copyIfNonEmpty, h]
  · intro kind s global_settings h
    show copyIfNonEmpty (some s) Settings.filter_blocked_games = none
    simp [copyIfNonEmpty, h]
  · intro kind s global_settings h hg
    rw [new_required_tags, updateTags_required_tags]
    simp [h, hg, setAddEach]
  · intro kind s global_settings h hg
    rw [new_blocked_tags, updateTags_blocked_tags]
    simp [h, hg, setAddEach]

/-- Witness of C7: settings and global settings with empty lists give null derived lists. -/
theorem derived_lists_null_or_nonempty_witness :
    (ColumnBase.new ColumnKind.live (some emptyListSettings)
        (some { tags := some [], blocked_tags := some [], lang := some [] })).DerivedListsOk ∧
    (ColumnBase.new ColumnKind.live (some emptyListSettings)
        (some { tags := some [] })).filter_games = none ∧
    (ColumnBase.new ColumnKind.live (some emptyListSettings)
        (some { tags := some [] })).required_tags = none :=
  ⟨derived_lists_null_or_nonempty.1 _ _ _,
    derived_lists_null_or_nonempty.2.2.2.2.2.1 _ _ _ (by decide),
    derived_lists_null_or_nonempty.2.2.2.2.2.2.2.1 _ _ _ (by decide) (by decide)⟩

/-! ## Claims on the allowed broadcast types -/

theorem updateTypes_loop_eq (types out videoTypes : List String) :
    updateTypes.loop types out videoTypes =
      out ++ videoTypes.filter (fun key => ! includes types key) := by
  induction videoTypes generalizing out with
  | nil => simp [updateTypes.loop]
  | cons key rest ih =>
    by_cases h : includes types key = true
    · simp [updateTypes.loop, h, ih]
    · simp [updateTypes.loop, h, ih]

/-- The value of `types` after `updateTypes`, from the column's settings. -/
theorem updateTypes_types (videoTypes : List String) (c : Column) :
    (VideoColumnBase.updateTypes videoTypes c).types =
      match c.settings.bind Settings.types with
      | some (TypesSetting.array ts) =>
        if ts = [] then none else some (videoTypes.filter (fun key => ! includes ts key))
      | _ => none := by
  unfold VideoColumnBase.updateTypes
  have hb : (match c.settings with
      | some s => s.types
      | none => none) = c.settings.bind Settings.types := by
    cases c.settings <;> rfl
  simp only [hb]
  generalize c.settings.bind Settings.types = t
  cases t with
  | none => rfl
  | some t =>
    cases t with
    | notArray => rfl
    | array ts =>
      cases ts with
      | nil => rfl
      | cons x xs => simp [updateTypes_loop_eq]

theorem updateSettings_settings [CaseMapping] (c : Column) (settings : Option Settings) :
    (ColumnBase.updateSettings c settings).settings = settings := by
  unfold ColumnBase.updateSettings
  simp only
  split <;> rfl

/-- C8, counterexample: when `settings.types` lists every key of `VideoTypes`, the constructor
leaves `types` an empty list that is not null. -/
theorem video_types_empty_not_null :
    (VideoColumnBase.new exampleVideoTypes (some allTypesSettings) none).types = some [] := by
  decide

/-- C8, amended: after the constructor of `VideoColumnBase` or its `updateSettings`, `types`
is null, or `settings.types` is a non-empty array and `types` is the list of the keys of
`VideoTypes` that it does not list; `types` is empty and not null exactly when the non-empty
`settings.types` lists every key of `VideoTypes`, and `canRun()` is falsy then. -/
theorem video_types_null_or_unlisted [CaseMapping] (videoTypes : List String) (settings : Option Settings)
    (global_settings : Option GlobalSettings) (c₀ c : Column)
    (hc : c = VideoColumnBase.new videoTypes settings global_settings ∨
      c = VideoColumnBase.updateSettings videoTypes c₀ settings) :
    (c.types = none ∨ ∃ ts, settings.bind Settings.types = some (TypesSetting.array ts) ∧
      ts ≠ [] ∧ c.types = some (videoTypes.filter (fun key => key ∉ ts))) ∧
    (c.types = some [] ↔ ∃ ts, settings.bind Settings.types = some (TypesSetting.array ts) ∧
      ts ≠ [] ∧ ∀ key ∈ videoTypes, key ∈ ts) ∧
    (c.types = some [] → VideoColumnBase.canRun c = false) := by
  have ht : c.types = match settings.bind Settings.types with
      | some (TypesSetting.array ts) =>
        if ts = [] then none else some (videoTypes.filter (fun key => ! includes ts key))
      | _ => none := by
    rcases hc with hc | hc
    · rw [hc]
      exact updateTypes_types videoTypes _
    · rw [hc]
      have h := updateTypes_types videoTypes (ColumnBase.updateSettings c₀ settings)
      rw [updateSettings_settings] at h
      exact h
  have hf : ∀ ts : List String, videoTypes.filter (fun key => ! includes ts key) =
      videoTypes.filter (fun key => key ∉ ts) := by
    intro ts
    apply List.filter_congr
    intro key _
    by_cases hk : key ∈ ts
    · simp [hk, (includes_iff ts key).2 hk]
    · simp [hk, (includes_false_iff ts key).2 hk]
  refine ⟨?_, ?_, ?_⟩
  · cases hs : settings.bind Settings.types with
    | none => left; rw [ht, hs]
    | some t =>
      cases t with
      | notArray => left; rw [ht, hs]
      | array ts =>
        by_cases he : ts = []
        · left; rw [ht, hs]; simp [he]
        · right
          refine ⟨ts, rfl, he, ?_⟩
          rw [ht, hs]
          simp only [he, if_false, hf]
  · cases hs : settings.bind Settings.types with
    | none => rw [ht, hs]; simp
    | some t =>
      cases t with
      | notArray => rw [ht, hs]; simp
      | array ts =>
        by_cases he : ts = []
        · rw [ht, hs]; simp [he]
        · rw [ht, hs]
          simp only [he, if_false, hf, Option.some.injEq, List.filter_eq_nil_iff,
            TypesSetting.array.injEq, exists_eq_left', ne_eq, not_false_eq_true, true_and]
          simp
  · intro h
    simp [VideoColumnBase.canRun, h]

/-- Witness of C8 (amended): the constructor on settings that list two of the three types. -/
theorem video_types_null_or_unlisted_witness :
    (VideoColumnBase.new exampleVideoTypes
        (some { types := some (TypesSetting.array ["ARCHIVE", "UPLOAD"]) }) none).types
      = some ["HIGHLIGHT"] ∧
    ((VideoColumnBase.new exampleVideoTypes
        (some { types := some (TypesSetting.array ["ARCHIVE", "UPLOAD"]) }) none).types
      = some [] ↔
      ∃ ts, (some ({ types := some (TypesSetting.array ["ARCHIVE", "UPLOAD"]) } : Settings)).bind
          Settings.types = some (TypesSetting.array ts) ∧
        ts ≠ [] ∧ ∀ key ∈ exampleVideoTypes, key ∈ ts) :=
  ⟨by decide,
    (video_types_null_or_unlisted exampleVideoTypes
      (some { types := some (TypesSetting.array ["ARCHIVE", "UPLOAD"]) }) none {} _
      (Or.inl rfl)).2.1⟩

/-! ## Claims on the tag sets -/

/-- The list that `set.size > 0 ? [...set] : null` yields for the union of two id lists. -/
theorem unionSet_spec (xs ys : List String) :
    match (if (setAddEach id (setAddEach id [] xs) ys).length > 0
        then some (setAddEach id (setAddEach id [] xs) ys) else none) with
    | none => xs = [] ∧ ys = []
    | some l => l ≠ [] ∧ l.Nodup ∧ ∀ x, x ∈ l ↔ x ∈ xs ∨ x ∈ ys := by
  have hmem : ∀ x, x ∈ setAddEach id (setAddEach id [] xs) ys ↔ x ∈ xs ∨ x ∈ ys := by
    intro x
    simp [mem_setAddEach]
  have hnd : (setAddEach id (setAddEach id [] xs) ys).Nodup :=
    nodup_setAddEach _ _ _ (nodup_setAddEach _ _ _ List.nodup_nil)
  by_cases h : setAddEach id (setAddEach id [] xs) ys = []
  · have h2 := (setAddEach_eq_nil_iff _ _ _).1 h
    have h3 := (setAddEach_eq_nil_iff _ _ _).1 h2.1
    simp only [h, List.length_nil, gt_iff_lt, lt_self_iff_false, if_false]
    exact ⟨h3.2, h2.2⟩
  · have hl : (setAddEach id (setAddEach id [] xs) ys).length > 0 :=
      List.length_pos.2 h
    simp only [hl, if_true]
    exact ⟨h, hnd, hmem⟩

/-- Two unions of permuted inputs are both null, or permutations of each other. -/
theorem unionSet_perm (xs ys xs' ys' : List String) (hx : xs.Perm xs') (hy : ys.Perm ys')
    (r r' : Option (List String))
    (hr : r = if (setAddEach id (setAddEach id [] xs) ys).length > 0
        then some (setAddEach id (setAddEach id [] xs) ys) else none)
    (hr' : r' = if (setAddEach id (setAddEach id [] xs') ys').length > 0
        then some (setAddEach id (setAddEach id [] xs') ys') else none) :
    r.isSome = r'.isSome ∧ (r.getD []).Perm (r'.getD []) := by
  have h1 := unionSet_spec xs ys
  have h2 := unionSet_spec xs' ys'
  rw [← hr] at h1
  rw [← hr'] at h2
  cases r with
  | none =>
    cases r' with
    | none => simp
    | some l' =>
      simp only at h1 h2
      obtain ⟨hne, _, hm⟩ := h2
      obtain ⟨x, hxl⟩ := List.exists_mem_of_ne_nil l' hne
      rcases (hm x).1 hxl with h | h
      · have := hx.mem_iff.2 h
        simp [h1.1] at this
      · have := hy.mem_iff.2 h
        simp [h1.2] at this
  | some l =>
    cases r' with
    | none =>
      simp only at h1 h2
      obtain ⟨hne, _, hm⟩ := h1
      obtain ⟨x, hxl⟩ := List.exists_mem_of_ne_nil l hne
      rcases (hm x).1 hxl with h | h
      · have := hx.mem_iff.1 h
        simp [h2.1] at this
      · have := hy.mem_iff.1 h
        simp [h2.2] at this
    | some l' =>
      simp only at h1 h2
      refine ⟨rfl, ?_⟩
      simp only [Option.getD_some]
      rw [List.perm_ext_iff_of_nodup h1.2.1 h2.2.1]
      intro a
      rw [h1.2.2 a, h2.2.2 a, hx.mem_iff, hy.mem_iff]

/-- C9: `updateTags` sets `required_tags` to a non-empty list without duplicates whose
elements are exactly the ids of the column's `tags` and of the global `tags` (compared as
strings, case-sensitively), or to null when there is no such id, and `blocked_tags` likewise
from the two `blocked_tags` lists; a column whose input lists are permutations of this
column's gets the same sets: both null, or lists that are permutations of each other. -/
theorem updateTags_union (c : Column) :
    (match (updateTags c).required_tags with
      | none => (c.settings.bind Settings.tags).getD [] = [] ∧
          (c.global_settings.bind GlobalSettings.tags).getD [] = []
      | some l => l ≠ [] ∧ l.Nodup ∧
          ∀ x, x ∈ l ↔ x ∈ (c.settings.bind Settings.tags).getD [] ∨
            x ∈ (c.global_settings.bind GlobalSettings.tags).getD []) ∧
    (match (updateTags c).blocked_tags with
      | none => (c.settings.bind Settings.blocked_tags).getD [] = [] ∧
          (c.global_settings.bind GlobalSettings.blocked_tags).getD [] = []
      | some l => l ≠ [] ∧ l.Nodup ∧
          ∀ x, x ∈ l ↔ x ∈ (c.settings.bind Settings.blocked_tags).getD [] ∨
            x ∈ (c.global_settings.bind GlobalSettings.blocked_tags).getD []) ∧
    (∀ c' : Column,
      ((c.settings.bind Settings.tags).getD []).Perm
        ((c'.settings.bind Settings.tags).getD []) →
      ((c.global_settings.bind GlobalSettings.tags).getD []).Perm
        ((c'.global_settings.bind GlobalSettings.tags).getD []) →
      (updateTags c).required_tags.isSome = (updateTags c').required_tags.isSome ∧
        ((updateTags c).required_tags.getD []).Perm ((updateTags c').required_tags.getD [])) ∧
    (∀ c' : Column,
      ((c.settings.bind Settings.blocked_tags).getD []).Perm
        ((c'.settings.bind Settings.blocked_tags).getD []) →
      ((c.global_settings.bind GlobalSettings.blocked_tags).getD []).Perm
        ((c'.global_settings.bind GlobalSettings.blocked_tags).getD []) →
      (updateTags c).blocked_tags.isSome = (updateTags c').blocked_tags.isSome ∧
        ((updateTags c).blocked_tags.getD []).Perm ((updateTags c').blocked_tags.getD [])) := by
  refine ⟨?_, ?_, ?_, ?_⟩
  · rw [updateTags_required_tags]
    exact unionSet_spec _ _
  · rw [updateTags_blocked_tags]
    exact unionSet_spec _ _
  · intro c' h1 h2
    exact unionSet_perm _ _ _ _ h1 h2 _ _ (updateTags_required_tags c)
      (updateTags_required_tags c')
  · intro c' h1 h2
    exact unionSet_perm _ _ _ _ h1 h2 _ _ (updateTags_blocked_tags c)
      (updateTags_blocked_tags c')

/-- Witness of C9: the union of overlapping lists, and the same lists permuted. -/
theorem updateTags_union_witness :
    (updateTags tagsColumn).required_tags = some ["a", "B", "b"] ∧
    (updateTags tagsColumn).blocked_tags = some ["x", "y"] ∧
    ((updateTags tagsColumn).required_tags.isSome =
        (updateTags tagsColumnPermuted).required_tags.isSome ∧
      ((updateTags tagsColumn).required_tags.getD []).Perm
        ((updateTags tagsColumnPermuted).required_tags.getD [])) :=
  ⟨by decide, by decide,
    (updateTags_union tagsColumn).2.2.1 tagsColumnPermuted (by decide) (by decide)⟩

/-! ## Claims on the category allow-list -/

/-- C10, counterexample: with the allow-list `10`, `20`, an item that carries no category is
accepted by each of the three predicates, though no category id of it is in the list. -/
theorem allow_list_keeps_item_without_category :
    ClipColumnBase.filterClip { id := "c" } none (some ["10", "20"]) none = true ∧
    LiveColumnBase.filterStream scenarioLoader liveNoCategory false none none none
      (some ["10", "20"]) none = true ∧
    VideoColumnBase.filterVideo scenarioLoader { id := "v" } false none none none none
      (some ["10", "20"]) none = true := by
  decide

/-- C10, amended: for each of `filterClip`, `filterStream` and `filterVideo`, an item that
carries a category whose id is not in a non-null allow-list is excluded; an item whose
category id is in the allow-list, and an item that carries no category, get the result they
get without an allow-list. -/
theorem allow_list_on_category [CaseMapping] (loader : TagLoader) (ids : List String)
    (blocked_games filter_blocked_games required_tags blocked_tags : Option (List String)) :
    (∀ (item : ClipItem),
      (∀ g, item.game = some g → g.id ∉ ids →
        ClipColumnBase.filterClip item blocked_games (some ids) filter_blocked_games = false) ∧
      ((item.game = none ∨ ∃ g, item.game = some g ∧ g.id ∈ ids) →
        ClipColumnBase.filterClip item blocked_games (some ids) filter_blocked_games =
          ClipColumnBase.filterClip item blocked_games none filter_blocked_games)) ∧
    (∀ (item : LiveItem) (hide_reruns : Bool),
      (∀ g, item.game = some g → g.id ∉ ids →
        LiveColumnBase.filterStream loader item hide_reruns blocked_games required_tags
          blocked_tags (some ids) filter_blocked_games = false) ∧
      ((item.game = none ∨ ∃ g, item.game = some g ∧ g.id ∈ ids) →
        LiveColumnBase.filterStream loader item hide_reruns blocked_games required_tags
            blocked_tags (some ids) filter_blocked_games =
          LiveColumnBase.filterStream loader item hide_reruns blocked_games required_tags
            blocked_tags none filter_blocked_games)) ∧
    (∀ (item : VideoItem) (no_recordings : Bool) (types : Option (List String)),
      (∀ g, item.game = some g → g.id ∉ ids →
        VideoColumnBase.filterVideo loader item no_recordings types blocked_games required_tags
          blocked_tags (some ids) filter_blocked_games = false) ∧
      ((item.game = none ∨ ∃ g, item.game = some g ∧ g.id ∈ ids) →
        VideoColumnBase.filterVideo loader item no_recordings types blocked_games required_tags
            blocked_tags (some ids) filter_blocked_games =
          VideoColumnBase.filterVideo loader item no_recordings types blocked_games
            required_tags blocked_tags none filter_blocked_games)) := by
  refine ⟨fun item => ⟨?_, ?_⟩, fun item hide_reruns => ⟨?_, ?_⟩,
    fun item no_recordings types => ⟨?_, ?_⟩⟩
  · intro g hg hni
    have hi := (includes_false_iff ids g.id).2 hni
    unfold ClipColumnBase.filterClip
    simp only [hg, hi]
    split_ifs <;> simp_all
  · rintro (hg | ⟨g, hg, hin⟩)
    · unfold ClipColumnBase.filterClip
      simp only [hg]
    · have hi := (includes_iff ids g.id).2 hin
      unfold ClipColumnBase.filterClip
      simp only [hg, hi]
      simp
  · intro g hg hni
    have hi := (includes_false_iff ids g.id).2 hni
    unfold LiveColumnBase.filterStream
    cases item.stream with
    | none => rfl
    | some stream =>
      simp only [hg, hi]
      split_ifs <;> simp_all
  · rintro (hg | ⟨g, hg, hin⟩)
    · unfold LiveColumnBase.filterStream
      simp only [hg]
    · have hi := (includes_iff ids g.id).2 hin
      unfold LiveColumnBase.filterStream
      simp only [hg, hi]
      simp
  · intro g hg hni
    have hi := (includes_false_iff ids g.id).2 hni
    unfold VideoColumnBase.filterVideo
    simp only [hg, hi]
    split_ifs <;> simp_all
  · rintro (hg | ⟨g, hg, hin⟩)
    · unfold VideoColumnBase.filterVideo
      simp only [hg]
    · have hi := (includes_iff ids g.id).2 hin
      unfold VideoColumnBase.filterVideo
      simp only [hg, hi]
      simp

/-- Witness of C10 (amended): the scenario with the allow-list `10`, `20`: category `30` is
excluded, category `10` passes as without a list. -/
theorem allow_list_on_category_witness :
    ClipColumnBase.filterClip clipCategory30 none (some ["10", "20"]) none = false ∧
    ClipColumnBase.filterClip clipCategory10 none (some ["10", "20"]) none =
      ClipColumnBase.filterClip clipCategory10 none none none :=
  ⟨((allow_list_on_category scenarioLoader ["10", "20"] none none none none).1
      clipCategory30).1 _ rfl (by decide),
    ((allow_list_on_category scenarioLoader ["10", "20"] none none none none).1
      clipCategory10).2 (Or.inr ⟨_, rfl, by decide⟩)⟩

/-! ## Claims on the category block lists, reruns and recordings -/

/-- C11: for each of `filterClip`, `filterStream` and `filterVideo` and every item with a
category, the item is excluded when the category's name is in `blocked_games` or its id is in
`filter_blocked_games`.  The name list is compared with the name only (a list that does not
hold the name changes nothing, whatever the id is), and the id list with the id only. -/
theorem category_block_lists [CaseMapping] (loader : TagLoader)
    (blocked_games filter_games filter_blocked_games required_tags blocked_tags :
      Option (List String)) :
    (∀ (item : ClipItem) (g : Game), item.game = some g →
      (((∃ names, blocked_games = some names ∧ g.name ∈ names) ∨
          (∃ ids, filter_blocked_games = some ids ∧ g.id ∈ ids)) →
        ClipColumnBase.filterClip item blocked_games filter_games filter_blocked_games
          = false) ∧
      (∀ names : List String, g.name ∉ names →
        ClipColumnBase.filterClip item (some names) filter_games filter_blocked_games =
          ClipColumnBase.filterClip item none filter_games filter_blocked_games) ∧
      (∀ ids : List String, g.id ∉ ids →
        ClipColumnBase.filterClip item blocked_games filter_games (some ids) =
          ClipColumnBase.filterClip item blocked_games filter_games none)) ∧
    (∀ (item : LiveItem) (hide_reruns : Bool) (g : Game), item.game = some g →
      (((∃ names, blocked_games = some names ∧ g.name ∈ names) ∨
          (∃ ids, filter_blocked_games = some ids ∧ g.id ∈ ids)) →
        LiveColumnBase.filterStream loader item hide_reruns blocked_games required_tags
          blocked_tags filter_games filter_blocked_games = false) ∧
      (∀ names : List String, g.name ∉ names →
        LiveColumnBase.filterStream loader item hide_reruns (some names) required_tags
            blocked_tags filter_games filter_blocked_games =
          LiveColumnBase.filterStream loader item hide_reruns none required_tags
            blocked_tags filter_games filter_blocked_games) ∧
      (∀ ids : List String, g.id ∉ ids →
        LiveColumnBase.filterStream loader item hide_reruns blocked_games required_tags
            blocked_tags filter_games (some ids) =
          LiveColumnBase.filterStream loader item hide_reruns blocked_games required_tags
            blocked_tags filter_games none)) ∧
    (∀ (item : VideoItem) (no_recordings : Bool) (types : Option (List String)) (g : Game),
      item.game = some g →
      (((∃ names, blocked_games = some names ∧ g.name ∈ names) ∨
          (∃ ids, filter_blocked_games = some ids ∧ g.id ∈ ids)) →
        VideoColumnBase.filterVideo loader item no_recordings types blocked_games
          required_tags blocked_tags filter_games filter_blocked_games = false) ∧
      (∀ names : List String, g.name ∉ names →
        VideoColumnBase.filterVideo loader item no_recordings types (some names)
            required_tags blocked_tags filter_games filter_blocked_games =
          VideoColumnBase.filterVideo loader item no_recordings types none
            required_tags blocked_tags filter_games filter_blocked_games) ∧
      (∀ ids : List String, g.id ∉ ids →
        VideoColumnBase.filterVideo loader item no_recordings types blocked_games
            required_tags blocked_tags filter_games (some ids) =
          VideoColumnBase.filterVideo loader item no_recordings types blocked_games
            required_tags blocked_tags filter_games none)) := by
  refine ⟨fun item g hg => ⟨?_, ?_, ?_⟩, fun item hide_reruns g hg => ⟨?_, ?_, ?_⟩,
    fun item no_recordings types g hg => ⟨?_, ?_, ?_⟩⟩
  · rintro (⟨names, hn, hin⟩ | ⟨ids, hi, hin⟩)
    · have h := (includes_iff names g.name).2 hin
      unfold ClipColumnBase.filterClip
      simp [hg, hn, h]
    · have h := (includes_iff ids g.id).2 hin
      unfold ClipColumnBase.filterClip
      simp only [hg, hi, h]
      split_ifs <;> rfl
  · intro names hni
    have h := (includes_false_iff names g.name).2 hni
    unfold ClipColumnBase.filterClip
    simp [hg, h]
  · intro ids hni
    have h := (includes_false_iff ids g.id).2 hni
    unfold ClipColumnBase.filterClip
    simp [hg, h]
  · rintro (⟨names, hn, hin⟩ | ⟨ids, hi, hin⟩)
    · have h := (includes_iff names g.name).2 hin
      unfold LiveColumnBase.filterStream
      cases item.stream with
      | none => rfl
      | some stream =>
        simp only [hg, hn, h]
        split_ifs <;> rfl
    · have h := (includes_iff ids g.id).2 hin
      unfold LiveColumnBase.filterStream
      cases item.stream with
      | none => rfl
      | some stream =>
        simp only [hg, hi, h]
        split_ifs <;> rfl
  · intro names hni
    have h := (includes_false_iff names g.name).2 hni
    unfold LiveColumnBase.filterStream
    simp [hg, h]
  · intro ids hni
    have h := (includes_false_iff ids g.id).2 hni
    unfold LiveColumnBase.filterStream
    simp [hg, h]
  · rintro (⟨names, hn, hin⟩ | ⟨ids, hi, hin⟩)
    · have h := (includes_iff names g.name).2 hin
      unfold VideoColumnBase.filterVideo
      simp only [hg, hn, h]
      split_ifs <;> rfl
    · have h := (includes_iff ids g.id).2 hin
      unfold VideoColumnBase.filterVideo
      simp only [hg, hi, h]
      split_ifs <;> rfl
  · intro names hni
    have h := (includes_false_iff names g.name).2 hni
    unfold VideoColumnBase.filterVideo
    simp [hg, h]
  · intro ids hni
    have h := (includes_false_iff ids g.id).2 hni
    unfold VideoColumnBase.filterVideo
    simp [hg, h]

/-- Witness of C11: the category `Chess` with id `30` is excluded by its name in the name
list and by its id in the id list, and the name list `30` changes nothing. -/
theorem category_block_lists_witness :
    ClipColumnBase.filterClip clipChess (some ["Chess"]) none none = false ∧
    ClipColumnBase.filterClip clipChess none none (some ["30"]) = false ∧
    ClipColumnBase.filterClip clipChess (some ["30"]) none none =
      ClipColumnBase.filterClip clipChess none none none :=
  ⟨((category_block_lists scenarioLoader (some ["Chess"]) none none none none).1
      clipChess _ rfl).1 (Or.inl ⟨_, rfl, by decide⟩),
    ((category_block_lists scenarioLoader none none (some ["30"]) none none).1
      clipChess _ rfl).1 (Or.inr ⟨_, rfl, by decide⟩),
    ((category_block_lists scenarioLoader none none none none none).1
      clipChess _ rfl).2.1 ["30"] (by decide)⟩

/-- C12: a Live item whose stream type is `rerun` is rejected by `filterStream` when
`hide_reruns` is true, whatever its category, tags and language and whatever the five lists
and the loader are. -/
theorem rerun_hidden [CaseMapping] (loader : TagLoader) (item : LiveItem) (stream : Stream)
    (blocked_games required_tags blocked_tags filter_games filter_blocked_games :
      Option (List String))
    (hs : item.stream = some stream) (ht : stream.type = some "rerun") :
    LiveColumnBase.filterStream loader item true blocked_games required_tags blocked_tags
      filter_games filter_blocked_games = false := by
  unfold LiveColumnBase.filterStream
  simp [hs, ht]

/-- Witness of C12: a rerun with no list set. -/
theorem rerun_hidden_witness :
    LiveColumnBase.filterStream scenarioLoader liveRerun true none none none none none
      = false :=
  rerun_hidden scenarioLoader liveRerun _ none none none none none rfl rfl

/-- C13: a Video item with the status `RECORDING` is rejected by `filterVideo` when
`no_recordings` is true; when `no_recordings` is false the status is not read: the item gets
the result it gets with any other status. -/
theorem recording_status [CaseMapping] (loader : TagLoader)
    (types blocked_games required_tags blocked_tags filter_games filter_blocked_games :
      Option (List String)) :
    (∀ item : VideoItem, item.status = some "RECORDING" →
      VideoColumnBase.filterVideo loader item true types blocked_games required_tags
        blocked_tags filter_games filter_blocked_games = false) ∧
    (∀ (item : VideoItem) (status : Option String),
      VideoColumnBase.filterVideo loader item false types blocked_games required_tags
          blocked_tags filter_games filter_blocked_games =
        VideoColumnBase.filterVideo loader { item with status := status } false types
          blocked_games required_tags blocked_tags filter_games filter_blocked_games) := by
  constructor
  · intro item hs
    unfold VideoColumnBase.filterVideo
    simp [hs]
  · intro item status
    unfold VideoColumnBase.filterVideo
    simp [VideoItem.getTagIds, VideoItem.lang]

/-- Witness of C13: the recording is rejected with `no_recordings`, accepted without. -/
theorem recording_status_witness :
    VideoColumnBase.filterVideo scenarioLoader videoRecording true none none none none none
      none = false ∧
    VideoColumnBase.filterVideo scenarioLoader videoRecording false none none none none none
      none = true :=
  ⟨(recording_status scenarioLoader none none none none none none).1 videoRecording rfl,
    by decide⟩

/-! ## Claims on `filterItems` as a stable filter, and on the shared stages -/

theorem count_filter_eq {α : Type} [DecidableEq α] (p : α → Bool) (l : List α) (a : α) :
    (l.filter p).count a = if p a = true then l.count a else 0 := by
  by_cases h : p a = true
  · simp only [h, if_true]
    exact List.count_filter h
  · simp only [h]
    exact List.count_eq_zero.2 (fun hm => h (List.mem_filter.1 hm).2)

/-- C19: for an array of items and a column whose settings objects are present (the global
settings; for Video also the column settings, which `filterItems` reads), `filterItems`
returns the input filtered by the per-item predicate of the kind: a sublist of the input that
holds each item as many times as the input does when the predicate accepts it, and not at all
otherwise. -/
theorem filterItems_is_filter [CaseMapping] (loader : TagLoader) (c : Column) (g : GlobalSettings)
    (hg : c.global_settings = some g) :
    (∀ items : List LiveItem, ∃ result,
      LiveColumnBase.filterItems loader c (some items) = Except.ok result ∧
      result = items.filter (fun item => LiveColumnBase.filterStream loader item g.hide_reruns
        g.blocked_games c.required_tags c.blocked_tags c.filter_games
        c.filter_blocked_games) ∧
      result.Sublist items ∧
      ∀ item, result.count item =
        if LiveColumnBase.filterStream loader item g.hide_reruns g.blocked_games
          c.required_tags c.blocked_tags c.filter_games c.filter_blocked_games = true
        then items.count item else 0) ∧
    (∀ items : List ClipItem, ∃ result,
      ClipColumnBase.filterItems c (some items) = Except.ok result ∧
      result = items.filter (fun item => ClipColumnBase.filterClip item g.blocked_games
        c.filter_games c.filter_blocked_games) ∧
      result.Sublist items ∧
      ∀ item, result.count item =
        if ClipColumnBase.filterClip item g.blocked_games c.filter_games
          c.filter_blocked_games = true
        then items.count item else 0) ∧
    (∀ (s : Settings), c.settings = some s → ∀ items : List VideoItem, ∃ result,
      VideoColumnBase.filterItems loader c (some items) = Except.ok result ∧
      result = items.filter (fun item => VideoColumnBase.filterVideo loader item
        (s.no_recordings || c.no_recordings) c.types g.blocked_games c.required_tags
        c.blocked_tags c.filter_games c.filter_blocked_games) ∧
      result.Sublist items ∧
      ∀ item, result.count item =
        if VideoColumnBase.filterVideo loader item (s.no_recordings || c.no_recordings)
          c.types g.blocked_games c.required_tags c.blocked_tags c.filter_games
          c.filter_blocked_games = true
        then items.count item else 0) := by
  refine ⟨fun items => ⟨_, ?_, rfl, List.filter_sublist _, fun item => count_filter_eq _ _ _⟩,
    fun items => ⟨_, ?_, rfl, List.filter_sublist _, fun item => count_filter_eq _ _ _⟩,
    fun s hs items =>
      ⟨_, ?_, rfl, List.filter_sublist _, fun item => count_filter_eq _ _ _⟩⟩
  · simp [LiveColumnBase.filterItems, hg]
  · simp [ClipColumnBase.filterItems, hg]
  · simp [VideoColumnBase.filterItems, hg, hs]

/-- Witness of C19: a column that blocks tag `9` keeps the first and third of three items. -/
theorem filterItems_is_filter_witness :
    LiveColumnBase.filterItems scenarioLoader { scenarioColumn with blocked_tags := some ["9"] }
        (some [scenarioItemEn, taggedLive, scenarioItemEn])
      = Except.ok [scenarioItemEn, scenarioItemEn] ∧
    ∃ result,
      LiveColumnBase.filterItems scenarioLoader
          { scenarioColumn with blocked_tags := some ["9"] }
          (some [scenarioItemEn, taggedLive, scenarioItemEn]) = Except.ok result ∧
      result.Sublist [scenarioItemEn, taggedLive, scenarioItemEn] :=
  ⟨rfl,
    match (filterItems_is_filter scenarioLoader
      { scenarioColumn with blocked_tags := some ["9"] } {} rfl).1
      [scenarioItemEn, taggedLive, scenarioItemEn] with
    | ⟨result, h1, _, h3, _⟩ => ⟨result, h1, h3⟩⟩

/-- C20: `filterStream` without `hide_reruns` and `filterVideo` without `no_recordings` and
without `types` agree on a Live item with a stream record and a Video item that have the
same category, the same tag ids (an absent list being the empty list) and the same language,
for all five lists and every loader. -/
theorem filterStream_eq_filterVideo [CaseMapping] (loader : TagLoader) (live : LiveItem) (video : VideoItem)
    (stream : Stream)
    (blocked_games required_tags blocked_tags filter_games filter_blocked_games :
      Option (List String))
    (hs : live.stream = some stream)
    (hgame : live.broadcastSettings.bind BroadcastSettings.game = video.game)
    (htags : live.getTagIds.getD [] = video.getTagIds.getD [])
    (hlang : live.broadcastSettings.bind BroadcastSettings.language = video.language) :
    LiveColumnBase.filterStream loader live false blocked_games required_tags blocked_tags
        filter_games filter_blocked_games =
      VideoColumnBase.filterVideo loader video false none blocked_games required_tags
        blocked_tags filter_games filter_blocked_games := by
  have hg : live.game = video.game := by
    rw [← hgame]
    unfold LiveItem.game
    cases live.broadcastSettings <;> rfl
  have hl : live.lang = video.lang := by
    unfold VideoItem.lang
    rw [← hlang]
    unfold LiveItem.lang
    cases live.broadcastSettings <;> rfl
  unfold LiveColumnBase.filterStream VideoColumnBase.filterVideo
  simp [hs, hg, hl, htags]

/-- Witness of C20: a Live item and a Video item of the same category, tags and language. -/
theorem filterStream_eq_filterVideo_witness :
    LiveColumnBase.filterStream scenarioLoader liveRerun false (some ["Art"]) (some ["123"])
        (some ["9"]) (some ["30"]) none =
      VideoColumnBase.filterVideo scenarioLoader videoLikeLiveRerun false none (some ["Art"])
        (some ["123"]) (some ["9"]) (some ["30"]) none :=
  filterStream_eq_filterVideo scenarioLoader liveRerun videoLikeLiveRerun _ _ _ _ _ _
    rfl (by decide) (by decide) (by decide)

/-! ## Claims on the client-side sort -/

theorem viewersHighToLow_le_iff (a b : LiveItem) :
    ClientSort.viewersHighToLow.apply a b ≤ 0 ↔ viewersCountOrZero b ≤ viewersCountOrZero a := by
  simp [ClientSort.apply]

/-- C14: for an array of Live items, `performClientSort` with the `VIEWER_COUNT` descriptor
(passed as the argument, or held in `this.sort` when no argument is passed) returns a
permutation of the input in which the viewer counts, a missing stream or count being 0, do not
increase from one item to any later one; the viewer counts 5, 20, 1 come out as 20, 5, 1. -/
theorem performClientSort_viewer_count :
    (∀ (c : Column) (items : List LiveItem), ∃ result,
      LiveColumnBase.performClientSort c (some items) (some LiveColumnBase.VIEWER_COUNT)
        = Except.ok result ∧
      result.Perm items ∧
      (result.map viewersCountOrZero).Pairwise (fun earlier later => later ≤ earlier)) ∧
    (∀ (c : Column) (items : List LiveItem), c.sort = some LiveColumnBase.VIEWER_COUNT →
      LiveColumnBase.performClientSort c (some items) none =
        LiveColumnBase.performClientSort c (some items) (some LiveColumnBase.VIEWER_COUNT)) ∧
    LiveColumnBase.performClientSort liveColumn
        (some [liveWithViewers "a" 5, liveWithViewers "b" 20, liveWithViewers "c" 1])
        (some LiveColumnBase.VIEWER_COUNT) =
      Except.ok [liveWithViewers "b" 20, liveWithViewers "a" 5, liveWithViewers "c" 1] := by
  refine ⟨fun c items =>
    ⟨arraySort ClientSort.viewersHighToLow.apply items, rfl, ?_, ?_⟩,
    fun c items hc => by simp [LiveColumnBase.performClientSort, hc], rfl⟩
  · exact List.perm_insertionSort _ _
  · haveI : IsTotal LiveItem (fun a b => ClientSort.viewersHighToLow.apply a b ≤ 0) :=
      ⟨fun a b => by
        simp only [viewersHighToLow_le_iff]
        exact le_total _ _⟩
    haveI : IsTrans LiveItem (fun a b => ClientSort.viewersHighToLow.apply a b ≤ 0) :=
      ⟨fun a b d => by
        simp only [viewersHighToLow_le_iff]
        exact fun h1 h2 => le_trans h2 h1⟩
    have hs := List.sorted_insertionSort
      (fun a b => ClientSort.viewersHighToLow.apply a b ≤ 0) items
    rw [List.pairwise_map]
    exact List.Pairwise.imp (fun h => (viewersHighToLow_le_iff _ _).1 h) hs

/-- C15, counterexample: a Live column with the `RELEVANCE` descriptor, which has no
comparator, returns the items as they are and raises nothing. -/
theorem performClientSort_relevance_returns :
    LiveColumnBase.performClientSort liveColumn
        (some [liveWithViewers "a" 5, liveWithViewers "b" 20])
        (some LiveColumnBase.RELEVANCE) =
      Except.ok [liveWithViewers "a" 5, liveWithViewers "b" 20] := by
  rfl

/-- C15, amended: `performClientSort` of `ColumnBase`, which Clip and Video columns inherit,
raises `Not Implemented` for every input; `performClientSort` of a Live column never raises:
when the descriptor in use (the argument, else `this.sort`) declares no comparator it returns
the array as it is, and for a value that is not an array it returns the empty list. -/
theorem performClientSort_not_implemented :
    (∀ (α : Type) (items : Option (List α)),
      ColumnBase.performClientSort α items = Except.error (JsError.error "Not Implemented")) ∧
    (∀ items, ClipColumnBase.performClientSort items =
      Except.error (JsError.error "Not Implemented")) ∧
    (∀ items, VideoColumnBase.performClientSort items =
      Except.error (JsError.error "Not Implemented")) ∧
    (∀ (c : Column) (items : List LiveItem) (sort : Option SortOption),
      ((∃ d, sort = some d ∧ d.clientSort = none) ∨
        (sort = none ∧ ∀ d, c.sort = some d → d.clientSort = none)) →
      LiveColumnBase.performClientSort c (some items) sort = Except.ok items) ∧
    (∀ (c : Column) (sort : Option SortOption),
      LiveColumnBase.performClientSort c none sort = Except.ok []) := by
  refine ⟨fun _ _ => rfl, fun _ => rfl, fun _ => rfl, ?_, fun _ _ => rfl⟩
  rintro c items sort (⟨d, hd, hn⟩ | ⟨hs, hn⟩)
  · simp [LiveColumnBase.performClientSort, hd, hn]
  · cases hc : c.sort with
    | none => simp [LiveColumnBase.performClientSort, hs, hc]
    | some d => simp [LiveColumnBase.performClientSort, hs, hc, hn d hc]

/-- Witness of C15 (amended): a Clip column raises, a Live column with `RELEVANCE` returns
its input. -/
theorem performClientSort_not_implemented_witness :
    ClipColumnBase.performClientSort (some [clipChess]) =
      Except.error (JsError.error "Not Implemented") ∧
    LiveColumnBase.performClientSort liveColumn (some [liveRerun])
      (some LiveColumnBase.RELEVANCE) = Except.ok [liveRerun] :=
  ⟨performClientSort_not_implemented.2.1 _,
    performClientSort_not_implemented.2.2.2.1 liveColumn [liveRerun]
      (some LiveColumnBase.RELEVANCE) (Or.inl ⟨_, rfl, rfl⟩)⟩

/-! ## Claims on the cache -/

theorem find_map_replace_ne {V : Type} (object : List (String × Option V))
    (key key' : String) (value : Option V) (hne : key' ≠ key) :
    (object.map (fun entry => if entry.1 == key then (key, value) else entry)).find?
        (fun entry => entry.1 == key') =
      object.find? (fun entry => entry.1 == key') := by
  have h2 : (key == key') = false := by
    simp only [beq_eq_false_iff_ne, ne_eq]
    exact fun h => hne h.symm
  induction object with
  | nil => rfl
  | cons e rest ih =>
    rw [List.map_cons, List.find?_cons, List.find?_cons, ih]
    by_cases hk : e.1 = key
    · have h1 : (e.1 == key) = true := by simp [hk]
      have h3 : (e.1 == key') = false := by rw [hk]; exact h2
      simp only [h1, if_true, h2, h3]
    · have h1 : (e.1 == key) = false := by simp [hk]
      simp only [h1, Bool.false_eq_true, if_false]

theorem find_append_entry_ne {V : Type} (object : List (String × Option V))
    (key key' : String) (value : Option V) (hne : key' ≠ key) :
    (object ++ [(key, value)]).find? (fun entry => entry.1 == key') =
      object.find? (fun entry => entry.1 == key') := by
  have h2 : (key == key') = false := by
    simp only [beq_eq_false_iff_ne, ne_eq]
    exact fun h => hne h.symm
  induction object with
  | nil => simp only [List.nil_append, List.find?_cons, h2, List.find?_nil]
  | cons e rest ih =>
    rw [List.cons_append, List.find?_cons, List.find?_cons, ih]

theorem find_map_replace_self {V : Type} (object : List (String × Option V))
    (key : String) (value : Option V)
    (hany : object.any (fun entry => entry.1 == key) = true) :
    (object.map (fun entry => if entry.1 == key then (key, value) else entry)).find?
        (fun entry => entry.1 == key) = some (key, value) := by
  induction object with
  | nil => simp at hany
  | cons e rest ih =>
    rw [List.map_cons, List.find?_cons]
    by_cases hk : e.1 = key
    · have h1 : (e.1 == key) = true := by simp [hk]
      simp only [h1, if_true, beq_self_eq_true]
    · have h1 : (e.1 == key) = false := by simp [hk]
      rw [List.any_cons, h1, Bool.false_or] at hany
      simp only [h1, Bool.false_eq_true, if_false]
      exact ih hany

theorem find_append_entry_self {V : Type} (object : List (String × Option V))
    (key : String) (value : Option V)
    (hany : object.any (fun entry => entry.1 == key) = false) :
    (object ++ [(key, value)]).find? (fun entry => entry.1 == key) = some (key, value) := by
  induction object with
  | nil => simp only [List.nil_append, List.find?_cons, beq_self_eq_true]
  | cons e rest ih =>
    rw [List.any_cons, Bool.or_eq_false_iff] at hany
    rw [List.cons_append, List.find?_cons, hany.1]
    exact ih hany.2

theorem any_key_iff {V : Type} (object : List (String × Option V)) (key : String) :
    object.any (fun entry => entry.1 == key) = true ↔ key ∈ object.map Prod.fst := by
  simp only [List.any_eq_true, beq_iff_eq, List.mem_map]

theorem objSet_find_ne {V : Type} (object : List (String × Option V)) (key key' : String)
    (value : Option V) (hne : key' ≠ key) :
    (objSet object key value).find? (fun entry => entry.1 == key') =
      object.find? (fun entry => entry.1 == key') := by
  unfold objSet
  by_cases hany : object.any (fun entry => entry.1 == key) = true
  · rw [if_pos hany]
    exact find_map_replace_ne object key key' value hne
  · rw [if_neg hany]
    by_cases hp : (key == "__proto__") = true
    · rw [if_pos hp]
    · rw [if_neg hp]
      exact find_append_entry_ne object key key' value hne

/-- After the assignment the key reads as the value assigned, for every key but a
`__proto__` that the object does not own. -/
theorem objGet_objSet_self {V : Type} (object : List (String × Option V)) (key : String)
    (value : Option V) (hset : key ≠ "__proto__" ∨ key ∈ object.map Prod.fst) :
    objGet (objSet object key value) key = ReadValue.ofEntry value := by
  unfold objGet objSet
  by_cases hany : object.any (fun entry => entry.1 == key) = true
  · rw [if_pos hany, find_map_replace_self object key value hany]
  · have hp : ¬ (key == "__proto__") = true := by
      rcases hset with h | h
      · simpa using h
      · exact absurd ((any_key_iff object key).2 h) hany
    rw [if_neg hany, if_neg hp,
      find_append_entry_self object key value (Bool.eq_false_iff.2 hany)]

theorem keys_objSet {V : Type} (object : List (String × Option V)) (key key' : String)
    (value : Option V) (h : key' ∈ object.map Prod.fst) :
    key' ∈ (objSet object key value).map Prod.fst := by
  unfold objSet
  by_cases hany : object.any (fun entry => entry.1 == key) = true
  · rw [if_pos hany]
    rw [List.mem_map] at h ⊢
    obtain ⟨e, he, hk⟩ := h
    by_cases hek : e.1 = key
    · exact ⟨(key, value), List.mem_map.2 ⟨e, he, by simp [hek]⟩, by rw [← hk, hek]⟩
    · exact ⟨e, List.mem_map.2 ⟨e, he, by simp [hek]⟩, hk⟩
  · rw [if_neg hany]
    by_cases hp : (key == "__proto__") = true
    · rw [if_pos hp]
      exact h
    · rw [if_neg hp]
      simp only [List.map_append, List.mem_append]
      exact Or.inl h

theorem loop_find {V : Type} [DecidableEq V] (entries cache : List (String × Option V))
    (updated : Bool) (key : String) (h : key ∉ entries.map Prod.fst) :
    (updateCache.loop cache updated entries).1.find? (fun entry => entry.1 == key) =
      cache.find? (fun entry => entry.1 == key) := by
  induction entries generalizing cache updated with
  | nil => rfl
  | cons e rest ih =>
    obtain ⟨k, v⟩ := e
    simp only [List.map_cons, List.mem_cons, not_or] at h
    unfold updateCache.loop
    split
    · rw [ih _ _ h.2, objSet_find_ne _ _ _ _ h.1]
    · exact ih _ _ h.2

theorem loop_keys {V : Type} [DecidableEq V] (entries cache : List (String × Option V))
    (updated : Bool) (key : String) (h : key ∈ cache.map Prod.fst) :
    key ∈ (updateCache.loop cache updated entries).1.map Prod.fst := by
  induction entries generalizing cache updated with
  | nil => exact h
  | cons e rest ih =>
    obtain ⟨k, v⟩ := e
    unfold updateCache.loop
    split
    · exact ih _ _ (keys_objSet _ _ _ _ h)
    · exact ih _ _ h

theorem objGet_congr {V : Type} (a b : List (String × Option V)) (key : String)
    (h : a.find? (fun entry => entry.1 == key) = b.find? (fun entry => entry.1 == key)) :
    objGet a key = objGet b key := by
  unfold objGet
  rw [h]

theorem loop_get {V : Type} [DecidableEq V] (entries cache : List (String × Option V))
    (updated : Bool) (hnd : (entries.map Prod.fst).Nodup) (key : String) (value : Option V)
    (h : (key, value) ∈ entries)
    (hset : key ≠ "__proto__" ∨ key ∈ cache.map Prod.fst) :
    objGet (updateCache.loop cache updated entries).1 key = ReadValue.ofEntry value := by
  induction entries generalizing cache updated with
  | nil => simp at h
  | cons e rest ih =>
    obtain ⟨k, v⟩ := e
    simp only [List.map_cons, List.nodup_cons] at hnd
    rcases List.mem_cons.1 h with heq | hmem
    · cases heq
      unfold updateCache.loop
      split
      · rw [objGet_congr _ _ _ (loop_find rest _ true key hnd.1)]
        exact objGet_objSet_self _ _ _ hset
      · rename_i hde
        rw [objGet_congr _ _ _ (loop_find rest _ updated key hnd.1)]
        simpa [deepEqualsRead] using hde
    · unfold updateCache.loop
      split
      · refine ih _ _ hnd.2 hmem ?_
        rcases hset with hs | hs
        · exact Or.inl hs
        · exact Or.inr (keys_objSet _ _ _ _ hs)
      · exact ih _ _ hnd.2 hmem hset

theorem loop_updated_true {V : Type} [DecidableEq V] (entries cache : List (String × Option V)) :
    (updateCache.loop cache true entries).2 = true := by
  induction entries generalizing cache with
  | nil => rfl
  | cons e rest ih =>
    obtain ⟨k, v⟩ := e
    unfold updateCache.loop
    split
    · exact ih _
    · exact ih _

theorem loop_updated_iff {V : Type} [DecidableEq V] (entries cache : List (String × Option V))
    (hnd : (entries.map Prod.fst).Nodup) :
    (updateCache.loop cache false entries).2 = true ↔
      ∃ key value, (key, value) ∈ entries ∧ objGet cache key ≠ ReadValue.ofEntry value := by
  induction entries generalizing cache with
  | nil => simp [updateCache.loop]
  | cons e rest ih =>
    obtain ⟨k, v⟩ := e
    simp only [List.map_cons, List.nodup_cons] at hnd
    unfold updateCache.loop
    split
    · rename_i hde
      have hne : objGet cache k ≠ ReadValue.ofEntry v := by
        simpa [deepEqualsRead] using hde
      simp only [loop_updated_true, true_iff]
      exact ⟨k, v, List.mem_cons_self _ _, hne⟩
    · rename_i hde
      have heq : objGet cache k = ReadValue.ofEntry v := by
        simpa [deepEqualsRead] using hde
      rw [ih cache hnd.2]
      constructor
      · rintro ⟨key, value, hm, hne⟩
        exact ⟨key, value, List.mem_cons_of_mem _ hm, hne⟩
      · rintro ⟨key, value, hm, hne⟩
        rcases List.mem_cons.1 hm with h | h
        · cases h
          exact absurd heq hne
        · exact ⟨key, value, h, hne⟩

theorem loop_not_updated {V : Type} [DecidableEq V] (entries cache : List (String × Option V))
    (h : (updateCache.loop cache false entries).2 = false) :
    (updateCache.loop cache false entries).1 = cache := by
  induction entries generalizing cache with
  | nil => rfl
  | cons e rest ih =>
    obtain ⟨k, v⟩ := e
    unfold updateCache.loop at h ⊢
    split
    · rename_i hde
      rw [if_pos hde, loop_updated_true] at h
      cases h
    · rename_i hde
      rw [if_neg hde] at h
      exact ih _ h

theorem updateCache_cache {V : Type} [DecidableEq V] (st : CacheState V)
    (entries : List (String × Option V)) :
    (ColumnBase.updateCache st (CachePayload.object entries)).cache =
      some (updateCache.loop (st.cache.getD []) false entries).1 := by
  have h : (match st.cache with
      | some cache => cache
      | none => []) = st.cache.getD [] := by
    cases st.cache <;> rfl
  unfold ColumnBase.updateCache
  simp only [h]
  split <;> rfl

theorem updateCache_calls {V : Type} [DecidableEq V] (st : CacheState V)
    (entries : List (String × Option V)) :
    ((updateCache.loop (st.cache.getD []) false entries).2 = true →
      (ColumnBase.updateCache st (CachePayload.object entries)).saved =
          st.saved ++ [(updateCache.loop (st.cache.getD []) false entries).1] ∧
        (ColumnBase.updateCache st (CachePayload.object entries)).refreshes =
          st.refreshes + 1) ∧
    ((updateCache.loop (st.cache.getD []) false entries).2 = false →
      (ColumnBase.updateCache st (CachePayload.object entries)).saved = st.saved ∧
        (ColumnBase.updateCache st (CachePayload.object entries)).refreshes =
          st.refreshes) := by
  have h : (match st.cache with
      | some cache => cache
      | none => []) = st.cache.getD [] := by
    cases st.cache <;> rfl
  unfold ColumnBase.updateCache
  simp only [h]
  constructor
  · intro hu
    simp only [hu, if_true, and_self]
  · intro hu
    simp only [hu, Bool.false_eq_true, if_false, and_self]

/-- The merge that `updateCache(data)` performs, for a cache (a null cache being the empty
object) and an object payload with primitive values.  The entry of every key that is not a
key of `data` stays as it was and no key is removed; `saveCache` (with the new cache) and
`refreshFromInst` are called once each when some key of `data` did not read as the value that
`data` gives it, and not at all otherwise, the cache then being unchanged.  Every key of
`data` reads as that value afterwards, except a key `__proto__` that the cache does not
own. -/
theorem updateCache_merge_own {V : Type} [DecidableEq V] (st : CacheState V)
    (entries : List (String × Option V)) (hnd : (entries.map Prod.fst).Nodup) :
    (∀ key, key ∉ entries.map Prod.fst →
      ((ColumnBase.updateCache st (CachePayload.object entries)).cache.getD []).find?
          (fun entry => entry.1 == key) =
        (st.cache.getD []).find? (fun entry => entry.1 == key)) ∧
    (∀ key, key ∈ (st.cache.getD []).map Prod.fst →
      key ∈ ((ColumnBase.updateCache st (CachePayload.object entries)).cache.getD []).map
        Prod.fst) ∧
    (∀ key value, (key, value) ∈ entries →
      (key ≠ "__proto__" ∨ key ∈ (st.cache.getD []).map Prod.fst) →
      objGet ((ColumnBase.updateCache st (CachePayload.object entries)).cache.getD []) key
        = ReadValue.ofEntry value) ∧
    ((∃ key value, (key, value) ∈ entries ∧
        objGet (st.cache.getD []) key ≠ ReadValue.ofEntry value) →
      (ColumnBase.updateCache st (CachePayload.object entries)).saved =
          st.saved ++
            [(ColumnBase.updateCache st (CachePayload.object entries)).cache.getD []] ∧
        (ColumnBase.updateCache st (CachePayload.object entries)).refreshes =
          st.refreshes + 1) ∧
    ((¬ ∃ key value, (key, value) ∈ entries ∧
        objGet (st.cache.getD []) key ≠ ReadValue.ofEntry value) →
      (ColumnBase.updateCache st (CachePayload.object entries)).saved = st.saved ∧
        (ColumnBase.updateCache st (CachePayload.object entries)).refreshes = st.refreshes ∧
        (ColumnBase.updateCache st (CachePayload.object entries)).cache.getD [] =
          st.cache.getD []) := by
  rw [updateCache_cache]
  simp only [Option.getD_some]
  refine ⟨fun key hk => loop_find entries _ false key hk,
    fun key hk => loop_keys entries _ false key hk,
    fun key value hm hset => loop_get entries _ false hnd key value hm hset, ?_, ?_⟩
  · intro hex
    have hu := (loop_updated_iff entries (st.cache.getD []) hnd).2 hex
    exact (updateCache_calls st entries).1 hu
  · intro hex
    have hu : (updateCache.loop (st.cache.getD []) false entries).2 = false := by
      cases h : (updateCache.loop (st.cache.getD []) false entries).2 with
      | false => rfl
      | true => exact absurd ((loop_updated_iff entries (st.cache.getD []) hnd).1 h) hex
    have hc := (updateCache_calls st entries).2 hu
    exact ⟨hc.1, hc.2, loop_not_updated entries _ hu⟩

/-- C16: the code at a payload where it departs from the claim.  On the cache with the keys
`cover` and `avatar`, `updateCache` of the payload with the one own key `__proto__` and the
value 5 stores nothing: the cache keeps its two entries and `__proto__` still reads as the
prototype, not as 5.  Yet `saveCache` and `refreshFromInst` are called, and they are called
again when the same payload is passed a second time. -/
theorem updateCache_proto_key :
    (ColumnBase.updateCache cacheState (CachePayload.object [("__proto__", some 5)])).cache =
      some [("cover", some 1), ("avatar", some 2)] ∧
    objGet ((ColumnBase.updateCache cacheState
        (CachePayload.object [("__proto__", some 5)])).cache.getD []) "__proto__" =
      ReadValue.inherited "__proto__" ∧
    (ColumnBase.updateCache cacheState (CachePayload.object [("__proto__", some 5)])).saved =
      [[("cover", some 1), ("avatar", some 2)]] ∧
    (ColumnBase.updateCache cacheState
      (CachePayload.object [("__proto__", some 5)])).refreshes = 1 ∧
    (ColumnBase.updateCache
      (ColumnBase.updateCache cacheState (CachePayload.object [("__proto__", some 5)]))
      (CachePayload.object [("__proto__", some 5)])).saved =
      [[("cover", some 1), ("avatar", some 2)], [("cover", some 1), ("avatar", some 2)]] ∧
    (ColumnBase.updateCache
      (ColumnBase.updateCache cacheState (CachePayload.object [("__proto__", some 5)]))
      (CachePayload.object [("__proto__", some 5)])).refreshes = 2 := by
  decide

/-- An example of the merge: a payload that changes `avatar`, adds `title` and leaves
`cover` is saved once, with the three entries. -/
theorem updateCache_merge_example :
    (ColumnBase.updateCache cacheState
        (CachePayload.object [("avatar", some 3), ("title", some 4)])).cache =
      some [("cover", some 1), ("avatar", some 3), ("title", some 4)] ∧
    (ColumnBase.updateCache cacheState
        (CachePayload.object [("avatar", some 3), ("title", some 4)])).saved =
      [[("cover", some 1), ("avatar", some 3), ("title", some 4)]] ∧
    (∀ key value, (key, value) ∈ [("avatar", some 3), ("title", some 4)] →
      objGet ((ColumnBase.updateCache cacheState
        (CachePayload.object [("avatar", some 3), ("title", some 4)])).cache.getD []) key
        = ReadValue.ofEntry value) :=
  ⟨by decide, by decide,
    fun key value hm =>
      (updateCache_merge_own cacheState [("avatar", some 3), ("title", some 4)]
        (by decide)).2.2.1 key value hm
        (by
          simp only [List.mem_cons, Prod.mk.injEq, List.mem_nil_iff, or_false] at hm
          rcases hm with h | h
          · exact Or.inr (by rw [h.1]; decide)
          · exact Or.inl (by rw [h.1]; decide))⟩

/-! ## Claims on the tag subtitle -/

theorem getTagSubtitle_loop_eq (loader : TagLoader) (decorate : String → String)
    (tip ids : List String) :
    getTagSubtitle.loop loader decorate tip ids =
      tip ++ ids.filterMap (fun tag_id => (loader tag_id).map (fun tag => decorate tag.label))
    := by
  induction ids generalizing tip with
  | nil => simp [getTagSubtitle.loop]
  | cons tag_id rest ih =>
    unfold getTagSubtitle.loop
    cases h : loader tag_id with
    | none => simp [ih, h]
    | some tag => simp [ih, h]

/-- The value of `tip` when the loops of `getTagSubtitle` are done. -/
theorem getTagSubtitle_tip (loader : TagLoader) (tags blocked : List String) :
    (if blocked.length > 0 then
        getTagSubtitle.loop loader (fun label => "-" ++ label)
          (if tags.length > 0 then getTagSubtitle.loop loader id [] tags else []) blocked
      else (if tags.length > 0 then getTagSubtitle.loop loader id [] tags else [])) =
      tags.filterMap (fun tag_id => (loader tag_id).map TagDescriptor.label) ++
        blocked.filterMap (fun tag_id => (loader tag_id).map (fun tag => "-" ++ tag.label)) := by
  have h1 : (if tags.length > 0 then getTagSubtitle.loop loader id [] tags else []) =
      tags.filterMap (fun tag_id => (loader tag_id).map TagDescriptor.label) := by
    cases tags with
    | nil => simp
    | cons t ts =>
      simp only [List.length_cons, gt_iff_lt, Nat.zero_lt_succ, if_true,
        getTagSubtitle_loop_eq, List.nil_append, id]
  rw [h1]
  cases blocked with
  | nil => simp
  | cons b bs =>
    simp only [List.length_cons, gt_iff_lt, Nat.zero_lt_succ, if_true, getTagSubtitle_loop_eq]

theorem length_getD (xs : Option (List String)) :
    (match xs with
      | some tags => tags.length
      | none => 0) = (xs.getD []).length := by
  cases xs <;> rfl

/-- C17, counterexample: a column with the one required tag `123`, which the loader resolves.
The subtitle is the label of the tag and carries no count. -/
theorem getTagSubtitle_single_label :
    ColumnBase.getTagSubtitle scenarioLoader oneTagColumn =
      some { icon := "ffz-i-tags", text := "English", tip := some "English" } ∧
    (ColumnBase.getTagSubtitle scenarioLoader oneTagColumn).bind Subtitle.count ≠ some 1 := by
  decide

/-- C17, amended: for column settings with at least one required or blocked tag, let `labels`
be the labels of the tags that the loader resolves at the call, required ones first, blocked
ones with a leading `-`.  When their number is not one, `getTagSubtitle` returns a summary
whose count is the number of required tags plus the number of blocked tags, and whose tooltip
joins `labels`, or is null when there is none.  When the settings hold one tag in all and it
is resolved, the subtitle is its label, as text and tooltip, without a count. -/
theorem getTagSubtitle_count (loader : TagLoader) (c : Column) (s : Settings)
    (hs : c.settings = some s)
    (hn : 0 < (s.tags.getD []).length + (s.blocked_tags.getD []).length) :
    (((s.tags.getD []).filterMap (fun tag_id => (loader tag_id).map TagDescriptor.label) ++
        (s.blocked_tags.getD []).filterMap
          (fun tag_id => (loader tag_id).map (fun tag => "-" ++ tag.label))).length ≠ 1 →
      ∃ subtitle, ColumnBase.getTagSubtitle loader c = some subtitle ∧
        subtitle.count = some ((s.tags.getD []).length + (s.blocked_tags.getD []).length) ∧
        subtitle.tip =
          if (s.tags.getD []).filterMap (fun tag_id => (loader tag_id).map TagDescriptor.label)
              ++ (s.blocked_tags.getD []).filterMap
                (fun tag_id => (loader tag_id).map (fun tag => "-" ++ tag.label)) = []
          then none
          else some (", ".intercalate
            ((s.tags.getD []).filterMap (fun tag_id => (loader tag_id).map TagDescriptor.label)
              ++ (s.blocked_tags.getD []).filterMap
                (fun tag_id => (loader tag_id).map (fun tag => "-" ++ tag.label))))) ∧
    ((s.tags.getD []).length + (s.blocked_tags.getD []).length = 1 →
      ∀ label,
        (s.tags.getD []).filterMap (fun tag_id => (loader tag_id).map TagDescriptor.label) ++
          (s.blocked_tags.getD []).filterMap
            (fun tag_id => (loader tag_id).map (fun tag => "-" ++ tag.label)) = [label] →
        ColumnBase.getTagSubtitle loader c =
          some { icon := "ffz-i-tags", text := label, tip := some label }) := by
  have hne : ¬ ((s.tags.getD []).length = 0 ∧ (s.blocked_tags.getD []).length = 0) := by
    omega
  unfold ColumnBase.getTagSubtitle
  simp only [hs, length_getD]
  simp only [getTagSubtitle_tip]
  rw [if_neg hne]
  generalize (s.tags.getD []).filterMap (fun tag_id => (loader tag_id).map TagDescriptor.label)
    ++ (s.blocked_tags.getD []).filterMap
      (fun tag_id => (loader tag_id).map (fun tag => "-" ++ tag.label)) = labels
  constructor
  · intro hl
    match labels, hl with
    | [], _ => exact ⟨_, rfl, rfl, by simp⟩
    | [only], hl => simp at hl
    | a :: b :: rest, _ => exact ⟨_, rfl, rfl, by simp⟩
  · intro _ label hl
    rw [hl]

/-- Witness of C17 (amended): of two required tags and one blocked tag the loader resolves
two; the summary counts three. -/
theorem getTagSubtitle_count_witness :
    ∃ subtitle, ColumnBase.getTagSubtitle twoTagLoader threeTagColumn = some subtitle ∧
      subtitle.count = some 3 ∧ subtitle.tip = some "English, -Chatty" :=
  match (getTagSubtitle_count twoTagLoader threeTagColumn
      { tags := some ["123", "7"], blocked_tags := some ["9"] } rfl (by decide)).1
      (by decide) with
  | ⟨subtitle, h1, h2, h3⟩ => ⟨subtitle, h1, h2, h3.trans (by decide)⟩

/-! ## Claims on raising -/

/-- C18: the code at inputs where it raises.  `filterItems` of a Live or Clip column whose
`global_settings` is null, and of a Video column whose `settings` is null, raises a
`TypeError` on an array of items (reading `hide_reruns`, `blocked_games`, `no_recordings` of
null); a value that is not an array gives the empty list in the same columns. -/
theorem filterItems_raises_without_settings :
    LiveColumnBase.filterItems scenarioLoader (ColumnBase.new ColumnKind.live (some {}) none)
        (some [scenarioItemEn]) = Except.error JsError.typeError ∧
    ClipColumnBase.filterItems (ColumnBase.new ColumnKind.clip (some {}) none)
        (some [clipChess]) = Except.error JsError.typeError ∧
    VideoColumnBase.filterItems scenarioLoader
        (VideoColumnBase.new exampleVideoTypes none (some {}))
        (some [videoRecording]) = Except.error JsError.typeError ∧
    LiveColumnBase.filterItems scenarioLoader (ColumnBase.new ColumnKind.live (some {}) none)
        none = Except.ok [] ∧
    ClipColumnBase.filterItems (ColumnBase.new ColumnKind.clip (some {}) none)
        none = Except.ok [] ∧
    VideoColumnBase.filterItems scenarioLoader
        (VideoColumnBase.new exampleVideoTypes none (some {})) none = Except.ok [] :=
  ⟨rfl, rfl, rfl, rfl, rfl, rfl⟩

/-! ## Claims on the broadcast types of a Video column -/

theorem filter_not_includes (ts videoTypes : List String) :
    videoTypes.filter (fun key => ! includes ts key) =
      videoTypes.filter (fun key => key ∉ ts) := by
  apply List.filter_congr
  intro key _
  by_cases hk : key ∈ ts
  · simp [hk, (includes_iff ts key).2 hk]
  · simp [hk, (includes_false_iff ts key).2 hk]

/-- The value of `types` after `updateTypes` on a non-empty array `settings.types`. -/
theorem updateTypes_types_of_array (videoTypes : List String) (c : Column) (ts : List String)
    (hts : c.settings.bind Settings.types = some (TypesSetting.array ts)) (hne : ts ≠ []) :
    (VideoColumnBase.updateTypes videoTypes c).types =
      some (videoTypes.filter (fun key => key ∉ ts)) := by
  rw [updateTypes_types, hts]
  simp only [hne, if_false, filter_not_includes]

/-- The value of `types` after `updateTypes` when `settings.types` is absent, not an array,
or empty. -/
theorem updateTypes_types_of_no_array (videoTypes : List String) (c : Column)
    (h : ∀ ts, c.settings.bind Settings.types = some (TypesSetting.array ts) → ts = []) :
    (VideoColumnBase.updateTypes videoTypes c).types = none := by
  rw [updateTypes_types]
  cases ht : c.settings.bind Settings.types with
  | none => rfl
  | some t =>
    cases t with
    | notArray => rfl
    | array ts => simp [h ts ht]

/-- The type test of `filterVideo` rejects a declared type that the allowed list lacks. -/
theorem filterVideo_type_rejected [CaseMapping] (loader : TagLoader) (item : VideoItem) (bt : String)
    (allowed : List String) (no_recordings : Bool)
    (blocked_games required_tags blocked_tags filter_games filter_blocked_games :
      Option (List String))
    (hbt : item.broadcastType = some bt) (hne : bt ≠ "") (hni : bt ∉ allowed) :
    VideoColumnBase.filterVideo loader item no_recordings (some allowed) blocked_games
      required_tags blocked_tags filter_games filter_blocked_games = false := by
  have hi := (includes_false_iff allowed bt).2 hni
  unfold VideoColumnBase.filterVideo
  simp only [hbt, truthyStr, hi]
  split_ifs <;> simp_all

/-- The type test of `filterVideo` passes an item without a type, and a declared type that
the allowed list holds. -/
theorem filterVideo_type_passed [CaseMapping] (loader : TagLoader) (item : VideoItem)
    (allowed : List String) (no_recordings : Bool)
    (blocked_games required_tags blocked_tags filter_games filter_blocked_games :
      Option (List String))
    (h : item.broadcastType = none ∨ item.broadcastType = some "" ∨
      ∃ bt, item.broadcastType = some bt ∧ bt ∈ allowed) :
    VideoColumnBase.filterVideo loader item no_recordings (some allowed) blocked_games
        required_tags blocked_tags filter_games filter_blocked_games =
      VideoColumnBase.filterVideo loader item no_recordings none blocked_games
        required_tags blocked_tags filter_games filter_blocked_games := by
  unfold VideoColumnBase.filterVideo
  rcases h with h | h | ⟨bt, h, hin⟩
  · simp only [h]
  · simp [h, truthyStr]
  · have hi := (includes_iff allowed bt).2 hin
    simp [h, hi]

/-- The method `filterItems` of a Video column after `updateTypes`, with both settings
objects present. -/
theorem filterItems_after_updateTypes [CaseMapping] (videoTypes : List String) (loader : TagLoader)
    (c : Column) (s : Settings) (g : GlobalSettings) (hs : c.settings = some s)
    (hg : c.global_settings = some g) (items : List VideoItem) :
    VideoColumnBase.filterItems loader (VideoColumnBase.updateTypes videoTypes c) (some items) =
      Except.ok (items.filter (fun item => VideoColumnBase.filterVideo loader item
        (s.no_recordings || c.no_recordings) (VideoColumnBase.updateTypes videoTypes c).types
        g.blocked_games c.required_tags c.blocked_tags c.filter_games
        c.filter_blocked_games)) := by
  obtain ⟨types, ht⟩ := updateTypes_eq videoTypes c
  rw [ht]
  simp [VideoColumnBase.filterItems, hs, hg]

/-- C21: after `updateTypes` on a column whose `settings.types` is a non-empty array,
`types` is the list of the keys of `VideoTypes`, in their order, that `settings.types` does
not list.  An item that declares a broadcast type (a non-empty string) which `settings.types`
lists, or which is no key of `VideoTypes`, is rejected by `filterVideo` with these `types`
and is not in the list that `filterItems` returns; an item that declares no broadcast type
gets the result it gets with `types` null.  When `settings.types` is absent, not an array or
empty, `types` is null, and every item gets the result it gets without a type test. -/
theorem updateTypes_broadcast_types [CaseMapping] (videoTypes : List String) (loader : TagLoader)
    (c : Column) :
    (∀ ts, c.settings.bind Settings.types = some (TypesSetting.array ts) → ts ≠ [] →
      (VideoColumnBase.updateTypes videoTypes c).types =
        some (videoTypes.filter (fun key => key ∉ ts)) ∧
      (∀ (item : VideoItem) (bt : String), item.broadcastType = some bt → bt ≠ "" →
        (bt ∈ ts ∨ bt ∉ videoTypes) →
        (∀ no_recordings blocked_games required_tags blocked_tags filter_games
            filter_blocked_games,
          VideoColumnBase.filterVideo loader item no_recordings
            (VideoColumnBase.updateTypes videoTypes c).types blocked_games required_tags
            blocked_tags filter_games filter_blocked_games = false) ∧
        (∀ (g : GlobalSettings) (items : List VideoItem), c.global_settings = some g →
          ∃ result,
            VideoColumnBase.filterItems loader (VideoColumnBase.updateTypes videoTypes c)
              (some items) = Except.ok result ∧
            item ∉ result)) ∧
      (∀ (item : VideoItem), (item.broadcastType = none ∨ item.broadcastType = some "") →
        ∀ no_recordings blocked_games required_tags blocked_tags filter_games
          filter_blocked_games,
        VideoColumnBase.filterVideo loader item no_recordings
            (VideoColumnBase.updateTypes videoTypes c).types blocked_games required_tags
            blocked_tags filter_games filter_blocked_games =
          VideoColumnBase.filterVideo loader item no_recordings none blocked_games
            required_tags blocked_tags filter_games filter_blocked_games)) ∧
    ((∀ ts, c.settings.bind Settings.types = some (TypesSetting.array ts) → ts = []) →
      (VideoColumnBase.updateTypes videoTypes c).types = none ∧
      (∀ (item : VideoItem) no_recordings blocked_games required_tags blocked_tags
          filter_games filter_blocked_games,
        VideoColumnBase.filterVideo loader item no_recordings
            (VideoColumnBase.updateTypes videoTypes c).types blocked_games required_tags
            blocked_tags filter_games filter_blocked_games =
          VideoColumnBase.filterVideo loader item no_recordings none blocked_games
            required_tags blocked_tags filter_games filter_blocked_games)) := by
  constructor
  · intro ts hts hne
    have htypes := updateTypes_types_of_array videoTypes c ts hts hne
    refine ⟨htypes, ?_, ?_⟩
    · intro item bt hbt hbne hlisted
      have hni : bt ∉ videoTypes.filter (fun key => key ∉ ts) := by
        intro hm
        have h := List.mem_filter.1 hm
        rcases hlisted with hl | hl
        · simpa [hl] using h.2
        · exact hl h.1
      have hrej : ∀ no_recordings blocked_games required_tags blocked_tags filter_games
          filter_blocked_games,
          VideoColumnBase.filterVideo loader item no_recordings
            (VideoColumnBase.updateTypes videoTypes c).types blocked_games required_tags
            blocked_tags filter_games filter_blocked_games = false := by
        intro no_recordings blocked_games required_tags blocked_tags filter_games
          filter_blocked_games
        rw [htypes]
        exact filterVideo_type_rejected loader item bt _ _ _ _ _ _ _ hbt hbne hni
      refine ⟨hrej, ?_⟩
      intro g items hg
      obtain ⟨s, hs⟩ : ∃ s, c.settings = some s := by
        cases h : c.settings with
        | none => simp [h] at hts
        | some s => exact ⟨s, rfl⟩
      refine ⟨_, filterItems_after_updateTypes videoTypes loader c s g hs hg items, ?_⟩
      intro hm
      have h := (List.mem_filter.1 hm).2
      rw [hrej] at h
      cases h
    · intro item hbt no_recordings blocked_games required_tags blocked_tags filter_games
        filter_blocked_games
      rw [htypes]
      apply filterVideo_type_passed
      rcases hbt with h | h
      · exact Or.inl h
      · exact Or.inr (Or.inl h)
  · intro h
    have htypes := updateTypes_types_of_no_array videoTypes c h
    refine ⟨htypes, ?_⟩
    intro item no_recordings blocked_games required_tags blocked_tags filter_games
      filter_blocked_games
    rw [htypes]

/-- Witness of C21: the column lists `ARCHIVE` and `UPLOAD`; `types` is `HIGHLIGHT`, the
recording of type `ARCHIVE` and the item of the foreign type `PREMIERE` are filtered out, the
highlight and the item without a type stay. -/
theorem updateTypes_broadcast_types_witness :
    typedVideoColumn.types = some ["HIGHLIGHT"] ∧
    VideoColumnBase.filterItems scenarioLoader typedVideoColumn
        (some [videoRecording, videoHighlight, videoPremiere, videoUntyped]) =
      Except.ok [videoHighlight, videoUntyped] ∧
    (VideoColumnBase.updateTypes exampleVideoTypes typedVideoColumn).types =
      some (exampleVideoTypes.filter (fun key => key ∉ ["ARCHIVE", "UPLOAD"])) ∧
    VideoColumnBase.filterVideo scenarioLoader videoRecording false
      (VideoColumnBase.updateTypes exampleVideoTypes typedVideoColumn).types none none none
      none none = false :=
  ⟨by decide, rfl,
    ((updateTypes_broadcast_types exampleVideoTypes scenarioLoader typedVideoColumn).1
      ["ARCHIVE", "UPLOAD"] rfl (by decide)).1,
    (((updateTypes_broadcast_types exampleVideoTypes scenarioLoader typedVideoColumn).1
      ["ARCHIVE", "UPLOAD"] rfl (by decide)).2.1 videoRecording "ARCHIVE" rfl (by decide)
      (Or.inl (by decide))).1 false none none none none none⟩

/-! ## Example of the language codes -/

/-- An example of `updateLanguages`: the codes of the column and of the global settings are
upper-cased and collected once each, in their order. -/
theorem updateLanguages_example :
    (ColumnBase.new ColumnKind.live (some { lang := some ["en", "fr"] })
      (some { lang := some ["EN", "de"] })).languages = some ["EN", "FR", "DE"] := by
  decide

end Deck
